import Mathlib

/-!
External-client controller of netmaker: configuration export, access gate, write
handlers, and the license helpers of `ee/util.go`.

A shallow embedding of `controllers/ext_client.go`.  Handlers are modelled as
pure functions over the records they read; the record store is passed
explicitly and every store call made by a function is written to a trace.
Go strings are Lean strings, Go `int` values are integers.
-/

namespace Netmaker

/-! ## Data model (the fields the controller reads or writes) -/

/-- External client record, `models.ExtClient`.  `DeniedACLs` is a Go map used as a
set; it is kept as the list of its keys, so that `len` is the list length. -/
structure ExtClient where
  ClientID : String := ""
  PrivateKey : String := ""
  PublicKey : String := ""
  Network : String := ""
  DNS : String := ""
  Address : String := ""
  Address6 : String := ""
  ExtraAllowedIPs : List String := []
  IngressGatewayID : String := ""
  IngressGatewayEndpoint : String := ""
  Enabled : Bool := false
  OwnerID : String := ""
  DeniedACLs : List String := []
deriving DecidableEq, Repr

/-- Network record, `models.Network`. -/
structure Network where
  NetID : String := ""
  AddressRange : String := ""
  AddressRange6 : String := ""
  DefaultKeepalive : Int := 0
  DefaultACL : String := ""
deriving DecidableEq, Repr

/-- Host record, `models.Host`.  `EndpointIP` and `PublicKey` hold the text that
their `String()` methods give, `HostID` of a node likewise. -/
structure Host where
  EndpointIP : String := ""
  ListenPort : Int := 0
  MTU : Int := 0
  PublicKey : String := ""
deriving DecidableEq, Repr

/-- Node record, `models.Node`. -/
structure Node where
  ID : String := ""
  HostID : String := ""
  IsIngressGateway : Bool := false
  IngressDNS : String := ""
deriving DecidableEq, Repr

/-! ## Configuration export: the local variables of `getExtClientConf` -/

/-- Lines 204-213: `addrString`. -/
def addrString (client : ExtClient) : String :=
  let addrString := client.Address
  let addrString := if addrString ≠ "" then addrString ++ "/32" else addrString
  if client.Address6 ≠ "" then
    let addrString := if addrString ≠ "" then addrString ++ "," else addrString
    addrString ++ (client.Address6 ++ "/128")
  else addrString

/-- Lines 215-218: `keepalive`; `strconv.Itoa` is decimal rendering. -/
def keepalive (network : Network) : String :=
  if network.DefaultKeepalive ≠ 0 then
    "PersistentKeepalive = " ++ toString network.DefaultKeepalive
  else ""

/-- Line 219: `gwendpoint`. -/
def gwendpoint (host : Host) : String :=
  host.EndpointIP ++ ":" ++ toString host.ListenPort

/-- Lines 220-231: `newAllowedIPs`.  `egress` is what
`logic.GetEgressRangesOnNetwork(&client)` returned; on an error the loop is
skipped. -/
def newAllowedIPs (network : Network) (egress : Except String (List String)) : String :=
  let newAllowedIPs := network.AddressRange
  let newAllowedIPs :=
    if newAllowedIPs ≠ "" ∧ network.AddressRange6 ≠ "" then newAllowedIPs ++ "," else newAllowedIPs
  let newAllowedIPs :=
    if network.AddressRange6 ≠ "" then newAllowedIPs ++ network.AddressRange6 else newAllowedIPs
  match egress with
  | .ok egressGatewayRanges =>
    egressGatewayRanges.foldl
      (fun acc egressGatewayRange => acc ++ ("," ++ egressGatewayRange)) newAllowedIPs
  | .error _ => newAllowedIPs

/-- Lines 232-237: `defaultDNS`. -/
def defaultDNS (client : ExtClient) (gwnode : Node) : String :=
  if client.DNS ≠ "" then "DNS = " ++ client.DNS
  else if gwnode.IngressDNS ≠ "" then "DNS = " ++ gwnode.IngressDNS
  else ""

/-- Lines 239-242: `defaultMTU`. -/
def defaultMTU (host : Host) : Int :=
  if host.MTU ≠ 0 then host.MTU else 1420

/-- Lines 243-262: the `fmt.Sprintf` template applied to its eight arguments. -/
def sprintfConfig (addrString privateKey : String) (defaultMTU : Int)
    (defaultDNS publicKey newAllowedIPs gwendpoint keepalive : String) : String :=
  "[Interface]\nAddress = " ++ addrString ++
  "\nPrivateKey = " ++ privateKey ++
  "\nMTU = " ++ toString defaultMTU ++
  "\n" ++ defaultDNS ++
  "\n\n[Peer]\nPublicKey = " ++ publicKey ++
  "\nAllowedIPs = " ++ newAllowedIPs ++
  "\nEndpoint = " ++ gwendpoint ++
  "\n" ++ keepalive ++
  "\n\n"

/-- Lines 204-262: `config`, from the four records and the egress lookup result. -/
def config (client : ExtClient) (gwnode : Node) (host : Host) (network : Network)
    (egress : Except String (List String)) : String :=
  sprintfConfig (addrString client) client.PrivateKey (defaultMTU host)
    (defaultDNS client gwnode) host.PublicKey (newAllowedIPs network egress)
    (gwendpoint host) (keepalive network)

/-! ## Collaborators of the handlers -/

/-- An error handed to `logic.ReturnErrorResponse(w, r, logic.FormatError(err, errType))`:
the error text and the kind tag given to `FormatError`. -/
structure HandlerError where
  err : String
  errType : String
deriving DecidableEq, Repr

/-- The functions of package `logic` (and the two library calls) that the handlers
read through; they are declared outside `ext_client.go` and are left open, except
for the egress enumeration, which is a table keyed by network. -/
structure Env where
  GetExtClient : String → String → Except String ExtClient
  GetNodeByID : String → Except String Node
  GetHost : String → Except String Host
  GetParentNetwork : String → Except String Network
  GetNetwork : String → Except String Network
  egressRangesOnNetwork : String → Except String (List String)
  qrEncode : String → Except String (List Nat)

/-- Modelled from the spec: `logic.GetEgressRangesOnNetwork`, which is not part of
`ext_client.go`; it gives every currently active egress-gateway range on the
client's network, in the order the store enumerates them. -/
def GetEgressRangesOnNetwork (env : Env) (client : ExtClient) : Except String (List String) :=
  env.egressRangesOnNetwork client.Network

/-- What `getExtClientConf` writes on success: the PNG bytes (`qr`), the
configuration file with its attachment name (`file`), or the client as JSON. -/
inductive ConfResponse where
  | qr (bytes : List Nat)
  | file (name : String) (body : String)
  | json (client : ExtClient)
deriving DecidableEq, Repr

/-- Lines 167-297: `getExtClientConf`, with `clientid`, `networkid` and `type` the
route parameters.  Writes to the response are taken to succeed. -/
def getExtClientConf (env : Env) (clientid networkid type : String) :
    Except HandlerError ConfResponse :=
  match env.GetExtClient clientid networkid with
  | .error err => .error ⟨err, "internal"⟩
  | .ok client =>
    match env.GetNodeByID client.IngressGatewayID with
    | .error err => .error ⟨err, "internal"⟩
    | .ok gwnode =>
      match env.GetHost gwnode.HostID with
      | .error err => .error ⟨err, "internal"⟩
      | .ok host =>
        match env.GetParentNetwork client.Network with
        | .error err => .error ⟨err, "internal"⟩
        | .ok network =>
          let config := config client gwnode host network (GetEgressRangesOnNetwork env client)
          if type = "qr" then
            match env.qrEncode config with
            | .error err => .error ⟨err, "internal"⟩
            | .ok bytes => .ok (.qr bytes)
          else if type = "file" then
            .ok (.file (client.ClientID ++ ".conf") config)
          else .ok (.json client)

/-- Lines 353-357 of `createExtClient`: the value left in `extclient.Enabled`, from
the result of `logic.GetNetwork(networkName)`. -/
def createExtClientEnabled (parentNetwork : Except String Network) : Bool :=
  let enabled := true
  match parentNetwork with
  | .ok parentNetwork => decide (parentNetwork.DefaultACL = "yes")
  | .error _ => enabled

/-! ## Users, network users and the record store -/

/-- User record, `models.User`. -/
structure User where
  UserName : String := ""
  IsAdmin : Bool := false
deriving DecidableEq, Repr

/-- Network user record, `promodels.NetworkUser`. -/
structure NetworkUser where
  AccessLevel : Int := 0
  ClientLimit : Int := 0
  NodeLimit : Int := 0
  ID : String := ""
  Clients : List String := []
  Nodes : List String := []
deriving DecidableEq, Repr

/-- The constants `pro.NET_ADMIN` and `pro.NO_ACCESS`.  They are declared in package
`pro`, outside the files under study, so their values are left open. -/
structure AccessLevels where
  NET_ADMIN : Int
  NO_ACCESS : Int
deriving DecidableEq, Repr

/-- Modelled from the spec: the Topology Store behind `logic.GetUser`,
`pro.GetNetworkUser` and `pro.UpdateNetworkUser`, which is not part of
`ext_client.go`: keyed lookups and writes only.  `writable = false` is a store
whose writes fail. -/
structure Store where
  users : String → Option User
  netUsers : String → String → Option NetworkUser
  writable : Bool := true

/-- One call made to the store. -/
inductive StoreOp where
  | GetUser (username : String)
  | GetNetworkUser (network : String) (userID : String)
  | UpdateNetworkUser (network : String) (netUser : NetworkUser)
deriving DecidableEq, Repr

/-- Whether a store call reads a NetworkUser record. -/
def StoreOp.readsNetworkUser : StoreOp → Bool
  | .GetNetworkUser _ _ => true
  | _ => false

/-- Whether a store call writes a NetworkUser record. -/
def StoreOp.writesNetworkUser : StoreOp → Bool
  | .UpdateNetworkUser _ _ => true
  | _ => false

/-- Modelled from the spec: `logic.GetUser`, a keyed lookup that fails when the
user is absent. -/
def GetUser (st : Store) (username : String) : Except String User :=
  match st.users username with
  | some u => .ok u
  | none => .error "could not find any records"

/-- Modelled from the spec: `pro.GetNetworkUser`, a keyed lookup of the principal's
record for one network that fails when the record is absent. -/
def GetNetworkUser (st : Store) (network userID : String) : Except String NetworkUser :=
  match st.netUsers network userID with
  | some nu => .ok nu
  | none => .error "could not find any records"

/-- Modelled from the spec: `pro.UpdateNetworkUser`, a keyed write of the record
under its network and its own identifier; a failed write changes nothing. -/
def UpdateNetworkUser (st : Store) (network : String) (netUser : NetworkUser) :
    Except String Store :=
  if st.writable then
    .ok { st with
          netUsers := fun n i =>
            if n = network ∧ i = netUser.ID then some netUser else st.netUsers n i }
  else .error "could not write record"

/-- Modelled from the spec: `logic.StringSliceContains`, whether the slice holds
the item. -/
def StringSliceContains (slice : List String) (item : String) : Bool :=
  slice.contains item

/-- Outcome of a gate function: what it returns, the store it leaves, and the store
calls it made, in order. -/
structure Outcome (α : Type) where
  ret : α
  store : Store
  trace : List StoreOp

/-- Lines 593-626: `checkProClientAccess`; the error is `none` for Go's `nil`. -/
def checkProClientAccess (lv : AccessLevels) (st : Store) (username clientID : String)
    (network : Network) : Outcome (Bool × Option String) :=
  match GetUser st username with
  | .error err => ⟨(false, some err), st, [.GetUser username]⟩
  | .ok u =>
    if u.IsAdmin then ⟨(true, none), st, [.GetUser username]⟩
    else
      match GetNetworkUser st network.NetID u.UserName with
      | .error err =>
        ⟨(false, some err), st, [.GetUser username, .GetNetworkUser network.NetID u.UserName]⟩
      | .ok netUser =>
        let reads := [StoreOp.GetUser username, .GetNetworkUser network.NetID u.UserName]
        if netUser.AccessLevel = lv.NET_ADMIN then ⟨(false, none), st, reads⟩
        else if netUser.AccessLevel = lv.NO_ACCESS then
          ⟨(false, some "user does not have access"), st, reads⟩
        else if ¬ ((netUser.Clients.length : Int) < netUser.ClientLimit) then
          ⟨(false, some "user can not create more clients"), st, reads⟩
        else if netUser.AccessLevel < lv.NO_ACCESS then
          let netUser := { netUser with Clients := netUser.Clients ++ [clientID] }
          match UpdateNetworkUser st network.NetID netUser with
          | .error err =>
            ⟨(false, some err), st, reads ++ [.UpdateNetworkUser network.NetID netUser]⟩
          | .ok st' => ⟨(false, none), st', reads ++ [.UpdateNetworkUser network.NetID netUser]⟩
        else ⟨(false, none), st, reads⟩

/-- Lines 628-648: `doesUserOwnClient`. -/
def doesUserOwnClient (lv : AccessLevels) (st : Store) (username clientID network : String) :
    Outcome (Bool × Bool) :=
  match GetUser st username with
  | .error _ => ⟨(false, false), st, [.GetUser username]⟩
  | .ok u =>
    if u.IsAdmin then ⟨(true, true), st, [.GetUser username]⟩
    else
      match GetNetworkUser st network u.UserName with
      | .error _ =>
        ⟨(false, false), st, [.GetUser username, .GetNetworkUser network u.UserName]⟩
      | .ok netUser =>
        let reads := [StoreOp.GetUser username, .GetNetworkUser network u.UserName]
        if netUser.AccessLevel = lv.NET_ADMIN then ⟨(false, true), st, reads⟩
        else ⟨(false, StringSliceContains netUser.Clients clientID), st, reads⟩

/-- Lines 463-470 of `updateExtClient` and 553-560 of `deleteExtClient` (the same
code in both): the handler goes on (`none`) or returns this error.  `ismaster` and
`userID` are the request headers. -/
def ownershipGate (lv : AccessLevels) (st : Store) (ismaster userID clientID networkName : String) :
    Option HandlerError :=
  if ismaster ≠ "yes" then
    let doesOwn := (doesUserOwnClient lv st userID clientID networkName).ret.2
    if ¬ doesOwn then some ⟨"user not permitted", "internal"⟩ else none
  else none

/-! ## The claims' wording, as predicates and as a second rendering -/

/-- The string does not start with a comma. -/
def NoLeadingComma (s : String) : Prop := s.data.head? ≠ some ','

/-- The string does not end with a comma. -/
def NoTrailingComma (s : String) : Prop := s.data.getLast? ≠ some ','

/-- Whether some two neighbouring characters are both commas. -/
def adjacentCommas : List Char → Bool
  | a :: b :: rest => (a == ',' && b == ',') || adjacentCommas (b :: rest)
  | _ => false

/-- The string has no two commas next to each other. -/
def NoDoubledComma (s : String) : Prop := adjacentCommas s.data = false

instance (s : String) : Decidable (NoLeadingComma s) :=
  inferInstanceAs (Decidable (s.data.head? ≠ some ','))

instance (s : String) : Decidable (NoTrailingComma s) :=
  inferInstanceAs (Decidable (s.data.getLast? ≠ some ','))

instance (s : String) : Decidable (NoDoubledComma s) :=
  inferInstanceAs (Decidable (adjacentCommas s.data = false))

/-- A range text that is present and has itself no leading, trailing or doubled
comma (every CIDR text is one). -/
def CleanRange (s : String) : Prop :=
  s ≠ "" ∧ NoLeadingComma s ∧ NoTrailingComma s ∧ NoDoubledComma s

instance (s : String) : Decidable (CleanRange s) :=
  inferInstanceAs
    (Decidable (s ≠ "" ∧ NoLeadingComma s ∧ NoTrailingComma s ∧ NoDoubledComma s))

/-- A character list that is non-empty and has no leading, trailing or doubled comma. -/
structure GoodChars (l : List Char) : Prop where
  ne : l ≠ []
  head : l.head? ≠ some ','
  last : l.getLast? ≠ some ','
  chain : List.Chain' (fun a b => ¬ (a = ',' ∧ b = ',')) l

/-- Every range preceded by a comma, in order. -/
def commaEach : List String → String
  | [] => ""
  | r :: rs => "," ++ r ++ commaEach rs

/-- Access levels used in the examples: network admin 0, no access 3. -/
def exampleLevels : AccessLevels := { NET_ADMIN := 0, NO_ACCESS := 3 }

/-- Example store: the administrator `root`, the plain user `bob` whose record on
`net1` is at level 2 with quota 3 and owns `c1`, `c2`, `c3`, the plain user
`carol` whose record on `net1` is at level 2 with quota 3 and owns `c9`, and the
plain user `dave` who has no record on `net1`. -/
def exampleStore : Store where
  users := fun name =>
    if name = "root" then some { UserName := "root", IsAdmin := true }
    else if name = "bob" then some { UserName := "bob" }
    else if name = "carol" then some { UserName := "carol" }
    else if name = "dave" then some { UserName := "dave" }
    else none
  netUsers := fun network id =>
    if network = "net1" ∧ id = "bob" then
      some { AccessLevel := 2, ClientLimit := 3, ID := "bob", Clients := ["c1", "c2", "c3"] }
    else if network = "net1" ∧ id = "carol" then
      some { AccessLevel := 2, ClientLimit := 3, ID := "carol", Clients := ["c9"] }
    else none

/-- The end-to-end scenario of spec section 8: client `cli1` on network `net1`
behind the ingress node `gw1` of host `h1`. -/
def e2eClient : ExtClient :=
  { ClientID := "cli1", PrivateKey := "PRIV", PublicKey := "K", Network := "net1",
    Address := "10.0.0.5", IngressGatewayID := "gw1",
    IngressGatewayEndpoint := "203.0.113.5:51821", Enabled := true }

/-- Ingress node of the end-to-end scenario. -/
def e2eNode : Node := { ID := "gw1", HostID := "h1", IsIngressGateway := true }

/-- Host of the end-to-end scenario. -/
def e2eHost : Host :=
  { EndpointIP := "203.0.113.5", ListenPort := 51821, MTU := 0, PublicKey := "HOSTKEY" }

/-- Network of the end-to-end scenario. -/
def e2eNetwork : Network :=
  { NetID := "net1", AddressRange := "10.0.0.0/24", DefaultKeepalive := 25,
    DefaultACL := "yes" }

/-- Lookups of the end-to-end scenario: every record is found, no egress range. -/
def e2eEnv : Env where
  GetExtClient := fun _ _ => .ok e2eClient
  GetNodeByID := fun _ => .ok e2eNode
  GetHost := fun _ => .ok e2eHost
  GetParentNetwork := fun _ => .ok e2eNetwork
  GetNetwork := fun _ => .ok e2eNetwork
  egressRangesOnNetwork := fun _ => .ok []
  qrEncode := fun _ => .ok []

/-- Each line followed by a line break. -/
def unlines : List String → String
  | [] => ""
  | l :: ls => l ++ "\n" ++ unlines ls

/-- The template of spec section 6 read as the claim words it: the `DNS` line only
when a DNS value is resolved, the `PersistentKeepalive` line only when the network
keepalive is non-zero, one blank line between the stanzas and one at the end. -/
def specTemplate (client : ExtClient) (gwnode : Node) (host : Host) (network : Network)
    (egress : Except String (List String)) : String :=
  unlines
    (["[Interface]",
      "Address = " ++ addrString client,
      "PrivateKey = " ++ client.PrivateKey,
      "MTU = " ++ toString (defaultMTU host)]
     ++ (if defaultDNS client gwnode ≠ "" then [defaultDNS client gwnode] else [])
     ++ ["",
         "[Peer]",
         "PublicKey = " ++ host.PublicKey,
         "AllowedIPs = " ++ newAllowedIPs network egress,
         "Endpoint = " ++ gwendpoint host]
     ++ (if network.DefaultKeepalive ≠ 0 then [keepalive network] else [])
     ++ [""])

/-! ## Write handlers: request body, collaborators, effects -/

/-- Request body of create and update, `models.CustomExtClient`; `DeniedACLs` is
kept as the list of the keys of the Go map. -/
structure CustomExtClient where
  ClientID : String := ""
  PublicKey : String := ""
  DNS : String := ""
  ExtraAllowedIPs : List String := []
  Enabled : Bool := false
  DeniedACLs : List String := []
deriving DecidableEq, Repr

/-- The validators and the record-store calls of the write handlers.  They are
declared outside `ext_client.go` and are left open: `validName`, whether
`wgtypes.ParseKey`, `net.ParseCIDR` and `net.ParseIP` accept a text,
`logic.GetRecordKey`, `database.FetchRecord`, `json.Unmarshal` into a client that
already holds values, `logic.GetPeerListenPort`, and the calls that take the
client by pointer and give it back changed. -/
structure Services where
  validName : String → Bool
  ParseKey : String → Bool
  ParseCIDR : String → Bool
  ParseIP : String → Bool
  GetRecordKey : String → String → Except String String
  FetchRecord : String → Except String String
  Unmarshal : String → ExtClient → Except String ExtClient
  GetPeerListenPort : Host → Int
  SetClientDefaultACLs : ExtClient → Except String ExtClient
  CreateExtClient : ExtClient → Except String ExtClient
  UpdateExtClient : ExtClient → CustomExtClient → Except String ExtClient
  DeleteExtClient : String → String → Option String

/-- Lines 650-680: `validateExtClient`.  The result is the target client as the
function leaves it, and the error (`none` for Go's `nil`); the four error values
are named after the package variables that hold them.  Every invalid entry of
`ExtraAllowedIPs` gives the same error, so the loop is a test of all entries. -/
def validateExtClient (sv : Services) (extclient : ExtClient)
    (customExtClient : CustomExtClient) : ExtClient × Option String :=
  if customExtClient.ClientID ≠ "" ∧ sv.validName customExtClient.ClientID = false then
    (extclient, some "errInvalidExtClientID")
  else
    let extclient := { extclient with ClientID := customExtClient.ClientID }
    if customExtClient.PublicKey.length > 0 ∧ sv.ParseKey customExtClient.PublicKey = false then
      (extclient, some "errInvalidExtClientPubKey")
    else
      let extclient :=
        if customExtClient.PublicKey.length > 0 then
          { extclient with PublicKey := customExtClient.PublicKey }
        else extclient
      if customExtClient.ExtraAllowedIPs.length > 0 ∧
          customExtClient.ExtraAllowedIPs.all sv.ParseCIDR = false then
        (extclient, some "errInvalidExtClientExtraIP")
      else
        let extclient :=
          if customExtClient.ExtraAllowedIPs.length > 0 then
            { extclient with ExtraAllowedIPs := customExtClient.ExtraAllowedIPs }
          else extclient
        if customExtClient.DNS ≠ "" ∧ sv.ParseIP customExtClient.DNS = false then
          (extclient, some "errInvalidExtClientDNS")
        else
          let extclient :=
            if customExtClient.DNS ≠ "" then { extclient with DNS := customExtClient.DNS }
            else extclient
          (extclient, none)

/-- Modelled from the spec: `logic.SetClientACLs`, which is not part of
`ext_client.go`; an ACL change replaces the client's denied-ACL list. -/
def SetClientACLs (ec : ExtClient) (newACLs : List String) : ExtClient :=
  { ec with DeniedACLs := newACLs }

/-- A store write or a publication attempted by a handler.  What a publication or
an association call returns is only logged by the handlers, so it is no input of
theirs. -/
inductive Effect where
  | CreateExtClient (extclient : ExtClient)
  | SaveExtClient (extclient : ExtClient)
  | UpdateExtClient (old : ExtClient) (update : CustomExtClient)
  | DeleteExtClient (network : String) (clientid : String)
  | UpdateNetworkUser (network : String) (netUser : NetworkUser)
  | AssociateNetworkUserClient (userID : String) (network : String) (clientID : String)
  | DissociateNetworkUserClient (userID : String) (network : String) (clientID : String)
  | PublishPeerUpdate
  | PublishExtCLientDNS (extclient : ExtClient)
  | PublishExtClientDNSUpdate (old : ExtClient) (new : ExtClient) (network : String)
  | PublishDeletedClientPeerUpdate (extclient : ExtClient)
  | PublishDeleteExtClientDNS (extclient : ExtClient)
deriving DecidableEq, Repr

/-- Whether the effect is a write of the record store. -/
def Effect.isStoreWrite : Effect → Bool
  | .CreateExtClient _ => true
  | .SaveExtClient _ => true
  | .UpdateExtClient _ _ => true
  | .DeleteExtClient _ _ => true
  | .UpdateNetworkUser _ _ => true
  | .AssociateNetworkUserClient _ _ _ => true
  | .DissociateNetworkUserClient _ _ _ => true
  | _ => false

/-- Whether the effect is a peer-update publication. -/
def Effect.isPeerUpdate : Effect → Bool
  | .PublishPeerUpdate => true
  | .PublishDeletedClientPeerUpdate _ => true
  | _ => false

/-- Whether the effect is a DNS publication. -/
def Effect.isDNS : Effect → Bool
  | .PublishExtCLientDNS _ => true
  | .PublishExtClientDNSUpdate _ _ _ => true
  | .PublishDeleteExtClientDNS _ => true
  | _ => false

/-- The NetworkUser writes among the store calls of a gate function, as effects. -/
def networkUserWrites : List StoreOp → List Effect
  | [] => []
  | .UpdateNetworkUser network netUser :: ops =>
    .UpdateNetworkUser network netUser :: networkUserWrites ops
  | _ :: ops => networkUserWrites ops

/-- What a write handler did: its response, the effects it attempted, in order,
and the user tables as its gate function left them. -/
structure Handled (α : Type) where
  response : Except HandlerError α
  effects : List Effect
  store : Store

/-- Lines 34-40: `checkIngressExists`. -/
def checkIngressExists (env : Env) (nodeID : String) : Bool :=
  match env.GetNodeByID nodeID with
  | .error _ => false
  | .ok node => node.IsIngressGateway

/-- Lines 307-403: `createExtClient`.  `networkName` and `nodeid` are the route
parameters, `ismaster` and `user` the request headers, `body` the decoded request
body.  A failed `logic.GetNetwork` leaves the zero network in `parentNetwork`.
The detached publications are listed after the writes. -/
def createExtClient (lv : AccessLevels) (env : Env) (sv : Services) (st : Store)
    (networkName nodeid ismaster user : String) (body : Except String CustomExtClient) :
    Handled Unit :=
  if checkIngressExists env nodeid = false then
    ⟨.error ⟨"ingress does not exist", "internal"⟩, [], st⟩
  else
    match body with
    | .error err => ⟨.error ⟨err, "badrequest"⟩, [], st⟩
    | .ok customExtClient =>
      match validateExtClient sv {} customExtClient with
      | (_, some err) => ⟨.error ⟨err, "badrequest"⟩, [], st⟩
      | (extclient, none) =>
        let extclient := { extclient with Network := networkName, IngressGatewayID := nodeid }
        match env.GetNodeByID nodeid with
        | .error err => ⟨.error ⟨err, "internal"⟩, [], st⟩
        | .ok node =>
          match env.GetHost node.HostID with
          | .error err => ⟨.error ⟨err, "internal"⟩, [], st⟩
          | .ok host =>
            let listenPort := sv.GetPeerListenPort host
            let extclient :=
              { extclient with
                IngressGatewayEndpoint := host.EndpointIP ++ ":" ++ toString listenPort
                Enabled := createExtClientEnabled (env.GetNetwork networkName) }
            let parentNetwork : Network :=
              match env.GetNetwork networkName with
              | .ok parentNetwork => parentNetwork
              | .error _ => {}
            match sv.SetClientDefaultACLs extclient with
            | .error err => ⟨.error ⟨err, "internal"⟩, [], st⟩
            | .ok extclient =>
              match sv.CreateExtClient extclient with
              | .error err => ⟨.error ⟨err, "internal"⟩, [.CreateExtClient extclient], st⟩
              | .ok created =>
                if ismaster ≠ "yes" then
                  let access := checkProClientAccess lv st user created.ClientID parentNetwork
                  match access.ret with
                  | (_, some err) =>
                    ⟨.error ⟨err, "internal"⟩,
                      [.CreateExtClient extclient] ++ networkUserWrites access.trace
                        ++ [.DeleteExtClient networkName created.ClientID],
                      access.store⟩
                  | (isAdmin, none) =>
                    if isAdmin = false then
                      let owned := { created with OwnerID := user }
                      ⟨.ok (),
                        [.CreateExtClient extclient] ++ networkUserWrites access.trace
                          ++ [.AssociateNetworkUserClient user networkName created.ClientID,
                              .SaveExtClient owned,
                              .PublishPeerUpdate, .PublishExtCLientDNS owned],
                        access.store⟩
                    else
                      ⟨.ok (),
                        [.CreateExtClient extclient] ++ networkUserWrites access.trace
                          ++ [.PublishPeerUpdate, .PublishExtCLientDNS created],
                        access.store⟩
                else
                  ⟨.ok (),
                    [.CreateExtClient extclient, .PublishPeerUpdate, .PublishExtCLientDNS created],
                    st⟩

/-- Lines 670 and 453 of `updateExtClient`: the request body as it stands after the
stored record is decoded.  Line 670 makes `oldExtClient.ExtraAllowedIPs` the same
slice as `update.ExtraAllowedIPs`, and `json.Unmarshal` decodes a JSON array into
the slice it finds, element by element, so the first entries of the request's list
are overwritten by the stored ones, as many as both lists have; the length of the
request's list and its other fields stay.  `old` is the client as `json.Unmarshal`
left it. -/
def aliasedUpdate (update : CustomExtClient) (old : ExtClient) : CustomExtClient :=
  { update with
    ExtraAllowedIPs :=
      old.ExtraAllowedIPs.take update.ExtraAllowedIPs.length
        ++ update.ExtraAllowedIPs.drop old.ExtraAllowedIPs.length }

/-- Lines 416-515: `updateExtClient`.  `clientid` and `network` are the route
parameters, `ismaster` and `user` the request headers, `body` the decoded request
body.  The detached DNS publication is listed last. -/
def updateExtClient (lv : AccessLevels) (env : Env) (sv : Services) (st : Store)
    (clientid network ismaster user : String) (body : Except String CustomExtClient) :
    Handled ExtClient :=
  match body with
  | .error err => ⟨.error ⟨err, "badrequest"⟩, [], st⟩
  | .ok update =>
    match sv.GetRecordKey clientid network with
    | .error err => ⟨.error ⟨err, "internal"⟩, [], st⟩
    | .ok key =>
      match validateExtClient sv {} update with
      | (_, some err) => ⟨.error ⟨err, "badrequest"⟩, [], st⟩
      | (oldExtClient, none) =>
        match sv.FetchRecord key with
        | .error err => ⟨.error ⟨err, "internal"⟩, [], st⟩
        | .ok data =>
          match sv.Unmarshal data oldExtClient with
          | .error err => ⟨.error ⟨err, "internal"⟩, [], st⟩
          | .ok oldExtClient =>
            let update := aliasedUpdate update oldExtClient
            let networkName := network
            let changedID := decide (update.ClientID ≠ oldExtClient.ClientID)
            match ownershipGate lv st ismaster user clientid networkName with
            | some e => ⟨.error e, [], st⟩
            | none =>
              let transfer : List Effect :=
                if changedID = true ∧ oldExtClient.OwnerID ≠ "" then
                  [.DissociateNetworkUserClient oldExtClient.OwnerID networkName
                      oldExtClient.ClientID,
                   .AssociateNetworkUserClient oldExtClient.OwnerID networkName update.ClientID]
                else []
              let aclsDiffer := decide (update.DeniedACLs.length ≠ oldExtClient.DeniedACLs.length)
              let oldExtClient :=
                if aclsDiffer = true then SetClientACLs oldExtClient update.DeniedACLs
                else oldExtClient
              let sendPeerUpdate := aclsDiffer || decide (update.Enabled ≠ oldExtClient.Enabled)
              let currentClient := oldExtClient
              match sv.UpdateExtClient oldExtClient update with
              | .error err =>
                ⟨.error ⟨err, "internal"⟩, transfer ++ [.UpdateExtClient oldExtClient update], st⟩
              | .ok newclient =>
                let peer : List Effect :=
                  if sendPeerUpdate = true then
                    match env.GetNodeByID newclient.IngressGatewayID with
                    | .ok _ => [.PublishPeerUpdate]
                    | .error _ => []
                  else []
                let dns : List Effect :=
                  if changedID = true then
                    [.PublishExtClientDNSUpdate currentClient newclient networkName]
                  else []
                ⟨.ok newclient,
                  transfer ++ [.UpdateExtClient oldExtClient update] ++ peer ++ dns, st⟩

/-- Lines 528-591: `deleteExtClient`.  `clientid` and `network` are the route
parameters, `ismaster` and `user` the request headers.  The two detached
publications are listed after the deletion, in the order the task makes them. -/
def deleteExtClient (lv : AccessLevels) (env : Env) (sv : Services) (st : Store)
    (clientid network ismaster user : String) : Handled String :=
  match env.GetExtClient clientid network with
  | .error _ => ⟨.error ⟨"Could not delete extclient " ++ clientid, "internal"⟩, [], st⟩
  | .ok extclient =>
    match env.GetNodeByID extclient.IngressGatewayID with
    | .error err => ⟨.error ⟨err, "internal"⟩, [], st⟩
    | .ok _ =>
      match ownershipGate lv st ismaster user clientid network with
      | some e => ⟨.error e, [], st⟩
      | none =>
        let dissociate : List Effect :=
          if extclient.OwnerID ≠ "" then
            [.DissociateNetworkUserClient extclient.OwnerID extclient.Network extclient.ClientID]
          else []
        match sv.DeleteExtClient network clientid with
        | some _ =>
          ⟨.error ⟨"Could not delete extclient " ++ clientid, "internal"⟩,
            dissociate ++ [.DeleteExtClient network clientid], st⟩
        | none =>
          ⟨.ok (clientid ++ " deleted."),
            dissociate ++ [.DeleteExtClient network clientid,
              .PublishDeletedClientPeerUpdate extclient, .PublishDeleteExtClientDNS extclient],
            st⟩

/-- Services of the examples: every text is valid, a stored record is the client
of the end-to-end scenario, and every write succeeds and gives the client back
with the requested identifier. -/
def exampleServices : Services where
  validName := fun _ => true
  ParseKey := fun _ => true
  ParseCIDR := fun _ => true
  ParseIP := fun _ => true
  GetRecordKey := fun id network => .ok (id ++ "###" ++ network)
  FetchRecord := fun _ => .ok "cli1"
  Unmarshal := fun _ _ => .ok e2eClient
  GetPeerListenPort := fun host => host.ListenPort
  SetClientDefaultACLs := fun extclient => .ok extclient
  CreateExtClient := fun extclient => .ok extclient
  UpdateExtClient := fun old update =>
    .ok { old with ClientID := update.ClientID, Enabled := update.Enabled }
  DeleteExtClient := fun _ _ => none

/-! ## License helpers of `ee/util.go` and the codec they call -/

/-- The alphabet of `base64.StdEncoding` (RFC 4648, table 1).  The codec is the Go
standard library, not repository code; it is written out here from RFC 4648 and
the documentation of `encoding/base64`. -/
def encodeStd : List Char :=
  "ABCDEFGHIJKLMNOPQRSTUVWXYZabcdefghijklmnopqrstuvwxyz0123456789+/".data

/-- The character of a six-bit value. -/
def stdChar (i : Nat) : Char := encodeStd.getD i 'A'

/-- The six-bit value of a character of the alphabet. -/
def stdIndex (c : Char) : Option Nat :=
  if encodeStd.indexOf c < 64 then some (encodeStd.indexOf c) else none

/-- Encoding of a byte sequence: three bytes give four characters, a last group of
one or two bytes is padded with `=`. -/
def encodeBytes : List Nat → List Char
  | [] => []
  | [a] =>
    let val := a * 65536
    [stdChar (val / 262144 % 64), stdChar (val / 4096 % 64), '=', '=']
  | [a, b] =>
    let val := a * 65536 + b * 256
    [stdChar (val / 262144 % 64), stdChar (val / 4096 % 64), stdChar (val / 64 % 64), '=']
  | a :: b :: c :: rest =>
    let val := a * 65536 + b * 256 + c
    stdChar (val / 262144 % 64) :: stdChar (val / 4096 % 64) :: stdChar (val / 64 % 64)
      :: stdChar (val % 64) :: encodeBytes rest

/-- Decoding of a text without line breaks, group by group: the bytes decoded so
far, and the error if the text is corrupt.  Padding may only end the text; bits
of a padded group that belong to no byte are dropped. -/
def decodeQuanta : List Char → List Nat × Option String
  | c0 :: c1 :: c2 :: c3 :: rest =>
    match stdIndex c0, stdIndex c1 with
    | some i0, some i1 =>
      if c2 = '=' then
        if c3 = '=' then
          if rest = [] then ([(i0 * 262144 + i1 * 4096) / 65536 % 256], none)
          else ([(i0 * 262144 + i1 * 4096) / 65536 % 256], some "illegal base64 data")
        else ([], some "illegal base64 data")
      else
        match stdIndex c2 with
        | none => ([], some "illegal base64 data")
        | some i2 =>
          if c3 = '=' then
            let val := i0 * 262144 + i1 * 4096 + i2 * 64
            if rest = [] then ([val / 65536 % 256, val / 256 % 256], none)
            else ([val / 65536 % 256, val / 256 % 256], some "illegal base64 data")
          else
            match stdIndex c3 with
            | none => ([], some "illegal base64 data")
            | some i3 =>
              let val := i0 * 262144 + i1 * 4096 + i2 * 64 + i3
              let more := decodeQuanta rest
              (val / 65536 % 256 :: val / 256 % 256 :: val % 256 :: more.1, more.2)
    | _, _ => ([], some "illegal base64 data")
  | [] => ([], none)
  | _ => ([], some "illegal base64 data")

/-- The text without its carriage returns and line feeds, which the decoder of
`encoding/base64` ignores. -/
def dropLineBreaks (cs : List Char) : List Char :=
  cs.filter (fun c => c ≠ '\r' ∧ c ≠ '\n')

/-- Model of `base64.StdEncoding.EncodeToString`; a byte is a number below 256. -/
def EncodeToString (src : List Nat) : String := ⟨encodeBytes src⟩

/-- Model of `base64.StdEncoding.DecodeString`: the bytes decoded and the error. -/
def DecodeString (s : String) : List Nat × Option String :=
  decodeQuanta (dropLineBreaks s.data)

/-- Lines 17-19 of `ee/util.go`: `base64encode`. -/
def base64encode (input : List Nat) : String := EncodeToString input

/-- Lines 22-32 of `ee/util.go`: `base64decode`; `none` is Go's `nil`. -/
def base64decode (input : String) : Option (List Nat) :=
  match DecodeString input with
  | (_, some _) => none
  | (bytes, none) => some bytes

/-- Standard padded base64 text: a multiple of four characters, all of the
alphabet except for one or two `=` at the very end. -/
def StdPadded (cs : List Char) : Prop :=
  cs.length % 4 = 0 ∧
  ∃ body pad, cs = body ++ pad ∧ (∀ c ∈ body, c ∈ encodeStd) ∧
    (pad = [] ∨ pad = ['='] ∨ pad = ['=', '='])

/-! ## Facts about strings -/

theorem data_eq_nil_iff (s : String) : s.data = [] ↔ s = "" := by
  constructor
  · intro h; exact String.ext h
  · intro h; subst h; rfl

theorem append_ne_empty_of_right (s t : String) (h : t ≠ "") : s ++ t ≠ "" := by
  intro hst
  have hd : (s ++ t).data = [] := (data_eq_nil_iff _).2 hst
  rw [String.data_append] at hd
  exact h ((data_eq_nil_iff t).1 (List.append_eq_nil.1 hd).2)

/-! ## Configuration export -/

/-- C3: the interface address is `v4/32`, `v6/128`, both joined by a comma, or
empty, according to which of the client's two addresses are non-empty. -/
theorem addrString_cases (client : ExtClient) :
    (client.Address ≠ "" → client.Address6 = "" →
      addrString client = client.Address ++ "/32") ∧
    (client.Address = "" → client.Address6 ≠ "" →
      addrString client = client.Address6 ++ "/128") ∧
    (client.Address ≠ "" → client.Address6 ≠ "" →
      addrString client = client.Address ++ "/32" ++ "," ++ (client.Address6 ++ "/128")) ∧
    (client.Address = "" → client.Address6 = "" → addrString client = "") := by
  refine ⟨?_, ?_, ?_, ?_⟩
  · intro h4 h6; simp [addrString, h4, h6]
  · intro h4 h6; simp [addrString, h4, h6]
  · intro h4 h6
    have h : client.Address ++ "/32" ≠ "" := append_ne_empty_of_right _ _ (by decide)
    simp [addrString, h4, h6, h]
  · intro h4 h6; simp [addrString, h4, h6]

theorem addrString_cases_witness :
    addrString { Address := "10.0.0.5", Address6 := "fd00::5" } = "10.0.0.5/32,fd00::5/128" ∧
    addrString { Address := "10.0.0.5" } = "10.0.0.5/32" ∧
    addrString { Address6 := "fd00::5" } = "fd00::5/128" :=
  ⟨((addrString_cases { Address := "10.0.0.5", Address6 := "fd00::5" }).2.2.1
      (by decide) (by decide)).trans (by decide),
   ((addrString_cases { Address := "10.0.0.5" }).1 (by decide) (by decide)).trans (by decide),
   ((addrString_cases { Address6 := "fd00::5" }).2.1 (by decide) (by decide)).trans (by decide)⟩

theorem adjacentCommas_eq_false_iff (l : List Char) :
    adjacentCommas l = false ↔ List.Chain' (fun a b => ¬ (a = ',' ∧ b = ',')) l := by
  induction l with
  | nil => simp [adjacentCommas]
  | cons a t ih =>
    cases t with
    | nil => simp [adjacentCommas]
    | cons b t =>
      rw [List.chain'_cons, ← ih]
      simp [adjacentCommas]

theorem goodChars_of_cleanRange (s : String) (h : CleanRange s) : GoodChars s.data :=
  ⟨fun hd => h.1 ((data_eq_nil_iff s).1 hd), h.2.1, h.2.2.1,
    (adjacentCommas_eq_false_iff _).1 h.2.2.2⟩

theorem goodChars_append_comma (a b : List Char) (ha : GoodChars a) (hb : GoodChars b) :
    GoodChars (a ++ ',' :: b) := by
  obtain ⟨x, a', rfl⟩ := List.exists_cons_of_ne_nil ha.ne
  obtain ⟨y, b', rfl⟩ := List.exists_cons_of_ne_nil hb.ne
  refine ⟨by simp, ?_, ?_, ?_⟩
  · simpa using ha.head
  · have := hb.last
    rw [List.getLast?_append_of_ne_nil _ (by simp), List.getLast?_cons_cons]
    exact this
  · rw [List.chain'_append]
    refine ⟨ha.chain, ?_, ?_⟩
    · rw [List.chain'_cons]
      refine ⟨?_, hb.chain⟩
      rintro ⟨-, hy⟩
      exact hb.head (by simp [hy])
    · intro u hu v _
      rintro ⟨hu', -⟩
      exact ha.last (by rw [← hu']; exact hu)

theorem foldl_comma_eq (egress : List String) (s : String) :
    egress.foldl (fun acc egressGatewayRange => acc ++ ("," ++ egressGatewayRange)) s
      = s ++ commaEach egress := by
  induction egress generalizing s with
  | nil => simp [commaEach]
  | cons r rs ih => simp [List.foldl_cons, ih, commaEach, String.append_assoc]

theorem goodChars_append_commaEach (egress : List String) (s : String)
    (hs : GoodChars s.data) (he : ∀ r ∈ egress, CleanRange r) :
    GoodChars (s ++ commaEach egress).data := by
  induction egress generalizing s with
  | nil => simpa [commaEach] using hs
  | cons r rs ih =>
    have hr : GoodChars (s ++ ("," ++ r)).data := by
      have := goodChars_append_comma s.data r.data hs
        (goodChars_of_cleanRange r (he r (List.mem_cons_self _ _)))
      simpa [String.data_append] using this
    have := ih (s ++ ("," ++ r)) hr (fun x hx => he x (List.mem_cons_of_mem _ hx))
    simpa [commaEach, String.append_assoc] using this

/-- The two network ranges joined as lines 220-226 join them. -/
theorem newAllowedIPs_error (network : Network) (err : String) :
    newAllowedIPs network (.error err)
      = network.AddressRange
        ++ (if network.AddressRange ≠ "" ∧ network.AddressRange6 ≠ "" then "," else "")
        ++ network.AddressRange6 := by
  by_cases h4 : network.AddressRange = "" <;> by_cases h6 : network.AddressRange6 = "" <;>
    simp [newAllowedIPs, h4, h6]

theorem newAllowedIPs_ok (network : Network) (egress : List String) :
    newAllowedIPs network (.ok egress)
      = network.AddressRange
        ++ (if network.AddressRange ≠ "" ∧ network.AddressRange6 ≠ "" then "," else "")
        ++ network.AddressRange6 ++ commaEach egress := by
  have h := newAllowedIPs_error network ""
  simp only [newAllowedIPs] at h ⊢
  rw [foldl_comma_eq, h]

theorem goodChars_networkRanges (network : Network)
    (h4 : network.AddressRange = "" ∨ CleanRange network.AddressRange)
    (h6 : network.AddressRange6 = "" ∨ CleanRange network.AddressRange6)
    (hne : network.AddressRange ≠ "" ∨ network.AddressRange6 ≠ "") :
    GoodChars (network.AddressRange
        ++ (if network.AddressRange ≠ "" ∧ network.AddressRange6 ≠ "" then "," else "")
        ++ network.AddressRange6).data := by
  by_cases e4 : network.AddressRange = "" <;> by_cases e6 : network.AddressRange6 = ""
  · exact absurd hne (by simp [e4, e6])
  · have c6 := goodChars_of_cleanRange _ (h6.resolve_left e6)
    simpa [e4, e6] using c6
  · have c4 := goodChars_of_cleanRange _ (h4.resolve_left e4)
    simpa [e4, e6] using c4
  · have c4 := goodChars_of_cleanRange _ (h4.resolve_left e4)
    have c6 := goodChars_of_cleanRange _ (h6.resolve_left e6)
    have := goodChars_append_comma _ _ c4 c6
    simpa [e4, e6, String.data_append] using this

/-- C1 (as amended): the allowed-address string is the IPv4 range, the IPv6 range
(after a comma when both are present), then every returned egress range, each
after a comma, in the order returned; it does not depend on the client's deny
list; and it has no leading, trailing or doubled comma when the network has at
least one range, and no range involved is empty or itself has a stray comma. -/
theorem newAllowedIPs_composition (env : Env) (client : ExtClient) (network : Network) :
    (∀ egress, GetEgressRangesOnNetwork env client = .ok egress →
      newAllowedIPs network (GetEgressRangesOnNetwork env client)
        = network.AddressRange
          ++ (if network.AddressRange ≠ "" ∧ network.AddressRange6 ≠ "" then "," else "")
          ++ network.AddressRange6 ++ commaEach egress) ∧
    (∀ err, GetEgressRangesOnNetwork env client = .error err →
      newAllowedIPs network (GetEgressRangesOnNetwork env client)
        = network.AddressRange
          ++ (if network.AddressRange ≠ "" ∧ network.AddressRange6 ≠ "" then "," else "")
          ++ network.AddressRange6) ∧
    (∀ denied,
      newAllowedIPs network (GetEgressRangesOnNetwork env { client with DeniedACLs := denied })
        = newAllowedIPs network (GetEgressRangesOnNetwork env client)) ∧
    ((network.AddressRange = "" ∨ CleanRange network.AddressRange) →
      (network.AddressRange6 = "" ∨ CleanRange network.AddressRange6) →
      (network.AddressRange ≠ "" ∨ network.AddressRange6 ≠ "") →
      (∀ egress, GetEgressRangesOnNetwork env client = .ok egress →
        ∀ r ∈ egress, CleanRange r) →
      NoLeadingComma (newAllowedIPs network (GetEgressRangesOnNetwork env client)) ∧
      NoTrailingComma (newAllowedIPs network (GetEgressRangesOnNetwork env client)) ∧
      NoDoubledComma (newAllowedIPs network (GetEgressRangesOnNetwork env client))) := by
  refine ⟨?_, ?_, ?_, ?_⟩
  · intro egress h
    rw [h, newAllowedIPs_ok]
  · intro err h
    rw [h, newAllowedIPs_error]
  · intro denied
    rfl
  · intro h4 h6 hne he
    have base := goodChars_networkRanges network h4 h6 hne
    cases hg : GetEgressRangesOnNetwork env client with
    | error err =>
      rw [newAllowedIPs_error]
      exact ⟨base.head, base.last, (adjacentCommas_eq_false_iff _).2 base.chain⟩
    | ok egress =>
      rw [newAllowedIPs_ok]
      have := goodChars_append_commaEach egress _ base (he egress hg)
      exact ⟨this.head, this.last, (adjacentCommas_eq_false_iff _).2 this.chain⟩

/-- C1, counterexample: on a network with neither range and one egress range the
string starts with a comma. -/
theorem newAllowedIPs_leading_comma :
    newAllowedIPs { NetID := "net1", AddressRange := "", AddressRange6 := "" }
        (.ok ["192.168.1.0/24"]) = ",192.168.1.0/24" ∧
    ¬ NoLeadingComma
        (newAllowedIPs { NetID := "net1", AddressRange := "", AddressRange6 := "" }
          (.ok ["192.168.1.0/24"])) := by
  decide

theorem newAllowedIPs_composition_witness :
    newAllowedIPs { AddressRange := "10.0.0.0/24", AddressRange6 := "fd00::/64" }
        (GetEgressRangesOnNetwork
          { e2eEnv with egressRangesOnNetwork := fun _ => .ok ["192.168.1.0/24"] } e2eClient)
      = "10.0.0.0/24,fd00::/64,192.168.1.0/24" ∧
    NoLeadingComma
      (newAllowedIPs { AddressRange := "10.0.0.0/24", AddressRange6 := "fd00::/64" }
        (GetEgressRangesOnNetwork
          { e2eEnv with egressRangesOnNetwork := fun _ => .ok ["192.168.1.0/24"] } e2eClient)) :=
  ⟨((newAllowedIPs_composition
        { e2eEnv with egressRangesOnNetwork := fun _ => .ok ["192.168.1.0/24"] } e2eClient
        { AddressRange := "10.0.0.0/24", AddressRange6 := "fd00::/64" }).1
      ["192.168.1.0/24"] rfl).trans (by decide),
   ((newAllowedIPs_composition
        { e2eEnv with egressRangesOnNetwork := fun _ => .ok ["192.168.1.0/24"] } e2eClient
        { AddressRange := "10.0.0.0/24", AddressRange6 := "fd00::/64" }).2.2.2
      (Or.inr (by decide)) (Or.inr (by decide)) (Or.inl (by decide))
      (by
        intro egress h r hr
        have : egress = ["192.168.1.0/24"] := (Except.ok.inj h).symm
        subst this
        have hr' : r = "192.168.1.0/24" := by simpa using hr
        subst hr'
        decide)).1⟩

theorem defaultDNS_ne_empty_iff (client : ExtClient) (gwnode : Node) :
    defaultDNS client gwnode ≠ "" ↔ client.DNS ≠ "" ∨ gwnode.IngressDNS ≠ "" := by
  unfold defaultDNS
  by_cases hc : client.DNS = "" <;> by_cases hg : gwnode.IngressDNS = ""
  · simp [hc, hg]
  · simpa [hc, hg] using append_ne_empty_of_right "DNS = " _ hg
  · simpa [hc, hg] using append_ne_empty_of_right "DNS = " _ hc
  · simpa [hc, hg] using append_ne_empty_of_right "DNS = " _ hc

/-- The rendered text as lines: the `DNS` and `PersistentKeepalive` values each
take a line of their own, empty or not. -/
theorem config_eq_unlines (client : ExtClient) (gwnode : Node) (host : Host)
    (network : Network) (egress : Except String (List String)) :
    config client gwnode host network egress
      = unlines
          ["[Interface]",
           "Address = " ++ addrString client,
           "PrivateKey = " ++ client.PrivateKey,
           "MTU = " ++ toString (defaultMTU host),
           defaultDNS client gwnode,
           "",
           "[Peer]",
           "PublicKey = " ++ host.PublicKey,
           "AllowedIPs = " ++ newAllowedIPs network egress,
           "Endpoint = " ++ gwendpoint host,
           keepalive network,
           ""] := by
  have e1 : ("[Interface]\nAddress = " : String) = "[Interface]" ++ "\n" ++ "Address = " := by
    decide
  have e2 : ("\nPrivateKey = " : String) = "\n" ++ "PrivateKey = " := by decide
  have e3 : ("\nMTU = " : String) = "\n" ++ "MTU = " := by decide
  have e4 : ("\n\n[Peer]\nPublicKey = " : String)
      = "\n" ++ ("" ++ "\n" ++ ("[Peer]" ++ "\n" ++ "PublicKey = ")) := by decide
  have e5 : ("\nAllowedIPs = " : String) = "\n" ++ "AllowedIPs = " := by decide
  have e6 : ("\nEndpoint = " : String) = "\n" ++ "Endpoint = " := by decide
  have e7 : ("\n\n" : String) = "\n" ++ ("" ++ "\n") := by decide
  simp only [config, sprintfConfig, unlines]
  rw [e1, e2, e3, e4, e5, e6, e7]
  simp only [String.append_assoc, String.append_empty, String.empty_append]

/-- C2 (as amended): the `file` response of `getExtClientConf` is the template of
spec section 6 in which the `DNS` and the `PersistentKeepalive` value each occupy
a line that is always emitted, empty when the value does not apply; it is the
template with optional lines exactly when a DNS value is resolved and the default
keepalive is non-zero. -/
theorem getExtClientConf_template (env : Env) (clientid networkid : String)
    (client : ExtClient) (gwnode : Node) (host : Host) (network : Network)
    (hc : env.GetExtClient clientid networkid = .ok client)
    (hn : env.GetNodeByID client.IngressGatewayID = .ok gwnode)
    (hh : env.GetHost gwnode.HostID = .ok host)
    (hnet : env.GetParentNetwork client.Network = .ok network) :
    getExtClientConf env clientid networkid "file"
      = .ok (.file (client.ClientID ++ ".conf")
          (unlines
            ["[Interface]",
             "Address = " ++ addrString client,
             "PrivateKey = " ++ client.PrivateKey,
             "MTU = " ++ toString (defaultMTU host),
             defaultDNS client gwnode,
             "",
             "[Peer]",
             "PublicKey = " ++ host.PublicKey,
             "AllowedIPs = " ++ newAllowedIPs network (GetEgressRangesOnNetwork env client),
             "Endpoint = " ++ gwendpoint host,
             keepalive network,
             ""])) ∧
    (network.DefaultKeepalive = 0 → keepalive network = "") ∧
    (client.DNS = "" → gwnode.IngressDNS = "" → defaultDNS client gwnode = "") ∧
    (client.DNS ≠ "" ∨ gwnode.IngressDNS ≠ "" → network.DefaultKeepalive ≠ 0 →
      getExtClientConf env clientid networkid "file"
        = .ok (.file (client.ClientID ++ ".conf")
            (specTemplate client gwnode host network (GetEgressRangesOnNetwork env client)))) := by
  have hfile : getExtClientConf env clientid networkid "file"
      = .ok (.file (client.ClientID ++ ".conf")
          (config client gwnode host network (GetEgressRangesOnNetwork env client))) := by
    simp [getExtClientConf, hc, hn, hh, hnet]
  refine ⟨?_, ?_, ?_, ?_⟩
  · rw [hfile, config_eq_unlines]
  · intro hk
    simp [keepalive, hk]
  · intro h1 h2
    simp [defaultDNS, h1, h2]
  · intro hd hk
    have hd' := (defaultDNS_ne_empty_iff client gwnode).2 hd
    rw [hfile, config_eq_unlines]
    simp [specTemplate, hd', hk]

set_option maxRecDepth 100000 in
/-- C2, counterexample: in the end-to-end scenario of spec section 8 (no DNS value)
the `file` response is not the template with the `DNS` line left out: an empty
line stands in its place. -/
theorem getExtClientConf_not_specTemplate :
    ∃ body, getExtClientConf e2eEnv "cli1" "net1" "file" = .ok (.file "cli1.conf" body) ∧
      body = "[Interface]\nAddress = 10.0.0.5/32\nPrivateKey = PRIV\nMTU = 1420\n\n\n[Peer]\nPublicKey = HOSTKEY\nAllowedIPs = 10.0.0.0/24\nEndpoint = 203.0.113.5:51821\nPersistentKeepalive = 25\n\n" ∧
      specTemplate e2eClient e2eNode e2eHost e2eNetwork (.ok [])
        = "[Interface]\nAddress = 10.0.0.5/32\nPrivateKey = PRIV\nMTU = 1420\n\n[Peer]\nPublicKey = HOSTKEY\nAllowedIPs = 10.0.0.0/24\nEndpoint = 203.0.113.5:51821\nPersistentKeepalive = 25\n\n" ∧
      body ≠ specTemplate e2eClient e2eNode e2eHost e2eNetwork (.ok []) :=
  ⟨_, rfl, by decide, by decide, by decide⟩

set_option maxRecDepth 100000 in
theorem getExtClientConf_template_witness :
    getExtClientConf
        { e2eEnv with GetExtClient := fun _ _ => .ok { e2eClient with DNS := "1.1.1.1" } }
        "cli1" "net1" "file"
      = .ok (.file "cli1.conf"
          "[Interface]\nAddress = 10.0.0.5/32\nPrivateKey = PRIV\nMTU = 1420\nDNS = 1.1.1.1\n\n[Peer]\nPublicKey = HOSTKEY\nAllowedIPs = 10.0.0.0/24\nEndpoint = 203.0.113.5:51821\nPersistentKeepalive = 25\n\n") :=
  ((getExtClientConf_template
      { e2eEnv with GetExtClient := fun _ _ => .ok { e2eClient with DNS := "1.1.1.1" } }
      "cli1" "net1" { e2eClient with DNS := "1.1.1.1" } e2eNode e2eHost e2eNetwork
      rfl rfl rfl rfl).2.2.2 (Or.inl (by decide)) (by decide)).trans
    (congrArg (fun b => Except.ok (ConfResponse.file "cli1.conf" b)) (by decide))

/-- C4: the DNS line is the client's override when that is non-empty, else the
gateway node's default when that is non-empty, else no value at all. -/
theorem defaultDNS_precedence (client : ExtClient) (gwnode : Node) :
    (client.DNS ≠ "" → defaultDNS client gwnode = "DNS = " ++ client.DNS) ∧
    (client.DNS = "" → gwnode.IngressDNS ≠ "" →
      defaultDNS client gwnode = "DNS = " ++ gwnode.IngressDNS) ∧
    (client.DNS = "" → gwnode.IngressDNS = "" → defaultDNS client gwnode = "") := by
  refine ⟨?_, ?_, ?_⟩
  · intro h; simp [defaultDNS, h]
  · intro h1 h2; simp [defaultDNS, h1, h2]
  · intro h1 h2; simp [defaultDNS, h1, h2]

theorem defaultDNS_precedence_witness :
    defaultDNS { DNS := "1.1.1.1" } { IngressDNS := "8.8.8.8" } = "DNS = 1.1.1.1" ∧
    defaultDNS {} { IngressDNS := "8.8.8.8" } = "DNS = 8.8.8.8" ∧
    defaultDNS {} {} = "" :=
  ⟨((defaultDNS_precedence { DNS := "1.1.1.1" } { IngressDNS := "8.8.8.8" }).1
      (by decide)).trans (by decide),
   ((defaultDNS_precedence {} { IngressDNS := "8.8.8.8" }).2.1 (by decide)
      (by decide)).trans (by decide),
   (defaultDNS_precedence {} {}).2.2 (by decide) (by decide)⟩

/-- C5: the MTU written into the configuration is the host's MTU when that is
non-zero and 1420 when it is zero. -/
theorem defaultMTU_written (client : ExtClient) (gwnode : Node) (host : Host)
    (network : Network) (egress : Except String (List String)) :
    (host.MTU = 0 → defaultMTU host = 1420) ∧
    (host.MTU ≠ 0 → defaultMTU host = host.MTU) ∧
    config client gwnode host network egress
      = "[Interface]\nAddress = " ++ addrString client ++
        "\nPrivateKey = " ++ client.PrivateKey ++
        "\nMTU = " ++ toString (if host.MTU = 0 then (1420 : Int) else host.MTU) ++
        "\n" ++ defaultDNS client gwnode ++
        "\n\n[Peer]\nPublicKey = " ++ host.PublicKey ++
        "\nAllowedIPs = " ++ newAllowedIPs network egress ++
        "\nEndpoint = " ++ gwendpoint host ++
        "\n" ++ keepalive network ++
        "\n\n" := by
  refine ⟨?_, ?_, ?_⟩
  · intro h; simp [defaultMTU, h]
  · intro h; simp [defaultMTU, h]
  · by_cases h : host.MTU = 0 <;> simp [config, sprintfConfig, defaultMTU, h]

theorem defaultMTU_written_witness :
    defaultMTU { MTU := 0 } = 1420 ∧ defaultMTU { MTU := 1280 } = 1280 :=
  ⟨(defaultMTU_written {} {} { MTU := 0 } {} (.ok [])).1 (by decide),
   (defaultMTU_written {} {} { MTU := 1280 } {} (.ok [])).2.1 (by decide)⟩

/-! ## Access gate -/

/-- C7: for a user who is not an administrator, `checkProClientAccess` returns an
error when the NetworkUser record is absent, when its level is `NO_ACCESS`, and
when its level is not `NET_ADMIN` and `len(Clients) >= ClientLimit`; the store is
left as it was and no NetworkUser write is issued. -/
theorem checkProClientAccess_rejects (lv : AccessLevels) (st : Store)
    (username clientID : String) (network : Network) (u : User)
    (hlv : lv.NET_ADMIN ≠ lv.NO_ACCESS)
    (hu : GetUser st username = .ok u) (hna : u.IsAdmin = false)
    (h : st.netUsers network.NetID u.UserName = none ∨
      ∃ netUser, st.netUsers network.NetID u.UserName = some netUser ∧
        (netUser.AccessLevel = lv.NO_ACCESS ∨
          (netUser.AccessLevel ≠ lv.NET_ADMIN ∧
            netUser.ClientLimit ≤ (netUser.Clients.length : Int)))) :
    (∃ err, (checkProClientAccess lv st username clientID network).ret = (false, some err)) ∧
    (checkProClientAccess lv st username clientID network).store = st ∧
    (∀ op ∈ (checkProClientAccess lv st username clientID network).trace,
      op.writesNetworkUser = false) := by
  rcases h with h | ⟨netUser, hnu, h⟩
  · simp [checkProClientAccess, hu, hna, GetNetworkUser, h, StoreOp.writesNetworkUser]
  · rcases h with h | ⟨hadm, hq⟩
    · have hlv' : ¬ lv.NO_ACCESS = lv.NET_ADMIN := fun e => hlv e.symm
      simp [checkProClientAccess, hu, hna, GetNetworkUser, hnu, h, hlv',
        StoreOp.writesNetworkUser]
    · by_cases hno : netUser.AccessLevel = lv.NO_ACCESS
      · have hlv' : ¬ lv.NO_ACCESS = lv.NET_ADMIN := fun e => hadm (hno.trans e)
        simp [checkProClientAccess, hu, hna, GetNetworkUser, hnu, hno, hlv',
          StoreOp.writesNetworkUser]
      · have hq' : ¬ ((netUser.Clients.length : Int) < netUser.ClientLimit) := not_lt.2 hq
        simp [checkProClientAccess, hu, hna, GetNetworkUser, hnu, hadm, hno, hq,
          StoreOp.writesNetworkUser]

theorem checkProClientAccess_rejects_witness :
    (checkProClientAccess exampleLevels exampleStore "bob" "c4" { NetID := "net1" }).store
      = exampleStore ∧
    ∃ err, (checkProClientAccess exampleLevels exampleStore "bob" "c4" { NetID := "net1" }).ret
      = (false, some err) :=
  have h := checkProClientAccess_rejects exampleLevels exampleStore "bob" "c4"
    { NetID := "net1" } { UserName := "bob" } (by decide) rfl rfl
    (Or.inr ⟨{ AccessLevel := 2, ClientLimit := 3, ID := "bob", Clients := ["c1", "c2", "c3"] },
      rfl, Or.inr ⟨by decide, by decide⟩⟩)
  ⟨h.2.1, h.1⟩

/-- C8: a NetworkUser record that is not at level `NET_ADMIN` and has
`len(Clients) <= ClientLimit` still has `len(Clients) <= ClientLimit` in the store
left by `checkProClientAccess`, whatever the call returned. -/
theorem checkProClientAccess_quota (lv : AccessLevels) (st : Store)
    (username clientID : String) (network : Network) (net id : String)
    (h : ∀ nu, st.netUsers net id = some nu → nu.AccessLevel ≠ lv.NET_ADMIN →
      (nu.Clients.length : Int) ≤ nu.ClientLimit) :
    ∀ nu, (checkProClientAccess lv st username clientID network).store.netUsers net id = some nu →
      nu.AccessLevel ≠ lv.NET_ADMIN → (nu.Clients.length : Int) ≤ nu.ClientLimit := by
  intro nu
  cases hu : GetUser st username with
  | error err => simpa [checkProClientAccess, hu] using h nu
  | ok u =>
    by_cases hadm : u.IsAdmin = true
    · simpa [checkProClientAccess, hu, hadm] using h nu
    · cases hg : GetNetworkUser st network.NetID u.UserName with
      | error err => simpa [checkProClientAccess, hu, hadm, hg] using h nu
      | ok netUser =>
        by_cases h1 : netUser.AccessLevel = lv.NET_ADMIN
        · simpa [checkProClientAccess, hu, hadm, hg, h1] using h nu
        · by_cases h2 : netUser.AccessLevel = lv.NO_ACCESS
          · have h1' : ¬ lv.NO_ACCESS = lv.NET_ADMIN := fun e => h1 (h2.trans e)
            simpa [checkProClientAccess, hu, hadm, hg, h2, h1'] using h nu
          · by_cases h3 : (netUser.Clients.length : Int) < netUser.ClientLimit
            · by_cases h4 : netUser.AccessLevel < lv.NO_ACCESS
              · by_cases hw : st.writable = true
                · have hout : (checkProClientAccess lv st username clientID network).store.netUsers
                      = fun n i =>
                          if n = network.NetID ∧ i = netUser.ID then
                            some { netUser with Clients := netUser.Clients ++ [clientID] }
                          else st.netUsers n i := by
                    simp [checkProClientAccess, hu, hadm, hg, h1, h2, h3, h4,
                      UpdateNetworkUser, hw]
                  rw [hout]
                  by_cases hk : net = network.NetID ∧ id = netUser.ID
                  · simp only [hk, and_self, if_true]
                    intro hnu _
                    have : nu = { netUser with Clients := netUser.Clients ++ [clientID] } :=
                      (Option.some.inj hnu).symm
                    subst this
                    simp only [List.length_append, List.length_singleton]
                    push_cast
                    omega
                  · simp only [hk, if_false]
                    exact h nu
                · simpa [checkProClientAccess, hu, hadm, hg, h1, h2, h3, h4,
                    UpdateNetworkUser, hw] using h nu
              · simpa [checkProClientAccess, hu, hadm, hg, h1, h2, h3, h4] using h nu
            · simpa [checkProClientAccess, hu, hadm, hg, h1, h2, h3] using h nu

theorem checkProClientAccess_quota_witness :
    (checkProClientAccess exampleLevels exampleStore "carol" "c10"
        { NetID := "net1" }).store.netUsers "net1" "carol"
      = some { AccessLevel := 2, ClientLimit := 3, ID := "carol", Clients := ["c9", "c10"] } ∧
    (((["c9", "c10"] : List String).length : Int) ≤ 3) :=
  ⟨by decide,
   checkProClientAccess_quota exampleLevels exampleStore "carol" "c10" { NetID := "net1" }
     "net1" "carol"
     (by
       intro nu hnu _
       have : nu = { AccessLevel := 2, ClientLimit := 3, ID := "carol", Clients := ["c9"] } :=
         (Option.some.inj hnu).symm
       subst this
       decide)
     { AccessLevel := 2, ClientLimit := 3, ID := "carol", Clients := ["c9", "c10"] }
     (by decide) (by decide)⟩

/-- C9: for a caller who is not an administrator, the permission result of
`doesUserOwnClient` is true exactly when the caller is a known user whose
NetworkUser record for the network exists and is at level `NET_ADMIN` or lists
the client id; otherwise it is false, and the gate of `updateExtClient` and
`deleteExtClient` then rejects the request. -/
theorem doesUserOwnClient_iff (lv : AccessLevels) (st : Store)
    (username clientID network : String)
    (hna : ∀ u, GetUser st username = .ok u → u.IsAdmin = false) :
    ((doesUserOwnClient lv st username clientID network).ret.2 = true ↔
      ∃ u netUser, st.users username = some u ∧
        st.netUsers network u.UserName = some netUser ∧
        (netUser.AccessLevel = lv.NET_ADMIN ∨ clientID ∈ netUser.Clients)) ∧
    (st.users username = none →
      (doesUserOwnClient lv st username clientID network).ret.2 = false) ∧
    ((doesUserOwnClient lv st username clientID network).ret.2 = false →
      ∀ ismaster, ismaster ≠ "yes" →
        ownershipGate lv st ismaster username clientID network
          = some ⟨"user not permitted", "internal"⟩) := by
  refine ⟨?_, ?_, ?_⟩
  · cases hu : st.users username with
    | none => simp [doesUserOwnClient, GetUser, hu]
    | some u =>
      have hadm : u.IsAdmin = false := hna u (by simp [GetUser, hu])
      cases hg : st.netUsers network u.UserName with
      | none => simp [doesUserOwnClient, GetUser, hu, hadm, GetNetworkUser, hg]
      | some netUser =>
        by_cases h1 : netUser.AccessLevel = lv.NET_ADMIN
        · simp [doesUserOwnClient, GetUser, hu, hadm, GetNetworkUser, hg, h1]
        · simp [doesUserOwnClient, GetUser, hu, hadm, GetNetworkUser, hg, h1,
            StringSliceContains]
  · intro hu
    simp [doesUserOwnClient, GetUser, hu]
  · intro hfalse ismaster hm
    simp [ownershipGate, hm, hfalse]

theorem doesUserOwnClient_iff_witness :
    (doesUserOwnClient exampleLevels exampleStore "bob" "c2" "net1").ret.2 = true ∧
    ownershipGate exampleLevels exampleStore "no" "bob" "c9" "net1"
      = some ⟨"user not permitted", "internal"⟩ :=
  have hbob : ∀ u, GetUser exampleStore "bob" = .ok u → u.IsAdmin = false := by
    intro u hu
    have : u = { UserName := "bob" } := (Except.ok.inj hu).symm
    subst this
    rfl
  ⟨(doesUserOwnClient_iff exampleLevels exampleStore "bob" "c2" "net1" hbob).1.2
      ⟨{ UserName := "bob" },
        { AccessLevel := 2, ClientLimit := 3, ID := "bob", Clients := ["c1", "c2", "c3"] },
        rfl, rfl, Or.inr (by decide)⟩,
   (doesUserOwnClient_iff exampleLevels exampleStore "bob" "c9" "net1" hbob).2.2
      (by decide) "no" (by decide)⟩

/-- C10: for a user whose `IsAdmin` flag is set, `checkProClientAccess` returns
`(true, nil)` and `doesUserOwnClient` returns `(true, true)`, for every network,
client id and content of the NetworkUser table; the only store call either makes
is the user lookup, and the store is left as it was. -/
theorem admin_bypass (lv : AccessLevels) (st : Store) (username : String) (u : User)
    (hu : st.users username = some u) (hadm : u.IsAdmin = true)
    (clientID networkName : String) (network : Network)
    (netUsers : String → String → Option NetworkUser) (writable : Bool) :
    (checkProClientAccess lv { st with netUsers := netUsers, writable := writable }
        username clientID network).ret = (true, none) ∧
    (checkProClientAccess lv { st with netUsers := netUsers, writable := writable }
        username clientID network).store = { st with netUsers := netUsers, writable := writable } ∧
    (checkProClientAccess lv { st with netUsers := netUsers, writable := writable }
        username clientID network).trace = [.GetUser username] ∧
    (doesUserOwnClient lv { st with netUsers := netUsers, writable := writable }
        username clientID networkName).ret = (true, true) ∧
    (doesUserOwnClient lv { st with netUsers := netUsers, writable := writable }
        username clientID networkName).store = { st with netUsers := netUsers, writable := writable } ∧
    (doesUserOwnClient lv { st with netUsers := netUsers, writable := writable }
        username clientID networkName).trace = [.GetUser username] ∧
    (∀ op ∈ (checkProClientAccess lv { st with netUsers := netUsers, writable := writable }
          username clientID network).trace
        ++ (doesUserOwnClient lv { st with netUsers := netUsers, writable := writable }
          username clientID networkName).trace,
      op.readsNetworkUser = false ∧ op.writesNetworkUser = false) := by
  simp [checkProClientAccess, doesUserOwnClient, GetUser, hu, hadm,
    StoreOp.readsNetworkUser, StoreOp.writesNetworkUser]

theorem admin_bypass_witness :
    (checkProClientAccess exampleLevels
        { exampleStore with netUsers := fun _ _ => none, writable := false }
        "root" "c4" { NetID := "net1" }).ret = (true, none) ∧
    (doesUserOwnClient exampleLevels
        { exampleStore with netUsers := fun _ _ => none, writable := false }
        "root" "c4" "net1").ret = (true, true) :=
  have h := admin_bypass exampleLevels exampleStore "root" { UserName := "root", IsAdmin := true }
    rfl rfl "c4" "net1" { NetID := "net1" } (fun _ _ => none) false
  ⟨h.1, h.2.2.2.1⟩

/-- C11: for a user who is not an administrator and whose NetworkUser record is at
level `NET_ADMIN`, `checkProClientAccess` returns no error, whatever `ClientLimit`
and the length of `Clients` are, and leaves the record and the store as they were. -/
theorem checkProClientAccess_netAdmin (lv : AccessLevels) (st : Store)
    (username clientID : String) (network : Network) (u : User) (netUser : NetworkUser)
    (hu : GetUser st username = .ok u) (hna : u.IsAdmin = false)
    (hnu : st.netUsers network.NetID u.UserName = some netUser)
    (hlevel : netUser.AccessLevel = lv.NET_ADMIN) :
    (checkProClientAccess lv st username clientID network).ret = (false, none) ∧
    (checkProClientAccess lv st username clientID network).store = st ∧
    (checkProClientAccess lv st username clientID network).store.netUsers network.NetID
        u.UserName = some netUser ∧
    (∀ op ∈ (checkProClientAccess lv st username clientID network).trace,
      op.writesNetworkUser = false) := by
  simp [checkProClientAccess, hu, hna, GetNetworkUser, hnu, hlevel, StoreOp.writesNetworkUser]

theorem checkProClientAccess_netAdmin_witness :
    (checkProClientAccess exampleLevels
        { exampleStore with
          netUsers := fun _ _ =>
            some { AccessLevel := 0, ClientLimit := 1, ID := "bob", Clients := ["c1", "c2"] } }
        "bob" "c3" { NetID := "net1" }).ret = (false, none) :=
  (checkProClientAccess_netAdmin exampleLevels
      { exampleStore with
        netUsers := fun _ _ =>
          some { AccessLevel := 0, ClientLimit := 1, ID := "bob", Clients := ["c1", "c2"] } }
      "bob" "c3" { NetID := "net1" } { UserName := "bob" }
      { AccessLevel := 0, ClientLimit := 1, ID := "bob", Clients := ["c1", "c2"] }
      rfl rfl rfl rfl).1

/-- C12: for a user who is not an administrator, whose NetworkUser record exists at
a level that is neither `NET_ADMIN` nor `NO_ACCESS` and is below `NO_ACCESS`, and
for whom `len(Clients) < ClientLimit`, `checkProClientAccess` issues one write: the
record with the client id appended at the end of `Clients` and every other field
as it was; when the call succeeds that record is the one stored under its
identifier, and every other entry of the store is unchanged. -/
theorem checkProClientAccess_appends (lv : AccessLevels) (st : Store)
    (username clientID : String) (network : Network) (u : User) (netUser : NetworkUser)
    (hu : GetUser st username = .ok u) (hna : u.IsAdmin = false)
    (hnu : st.netUsers network.NetID u.UserName = some netUser)
    (hadm : netUser.AccessLevel ≠ lv.NET_ADMIN) (hno : netUser.AccessLevel ≠ lv.NO_ACCESS)
    (hlt : netUser.AccessLevel < lv.NO_ACCESS)
    (hq : (netUser.Clients.length : Int) < netUser.ClientLimit) :
    networkUserWrites (checkProClientAccess lv st username clientID network).trace
      = [.UpdateNetworkUser network.NetID
          { AccessLevel := netUser.AccessLevel, ClientLimit := netUser.ClientLimit,
            NodeLimit := netUser.NodeLimit, ID := netUser.ID,
            Clients := netUser.Clients ++ [clientID], Nodes := netUser.Nodes }] ∧
    ((netUser.Clients ++ [clientID]).length = netUser.Clients.length + 1) ∧
    ((netUser.Clients ++ [clientID]).take netUser.Clients.length = netUser.Clients) ∧
    ((checkProClientAccess lv st username clientID network).ret.2 = none ↔
      st.writable = true) ∧
    ((checkProClientAccess lv st username clientID network).ret.2 = none →
      (checkProClientAccess lv st username clientID network).store.netUsers network.NetID
          netUser.ID
        = some { AccessLevel := netUser.AccessLevel, ClientLimit := netUser.ClientLimit,
                 NodeLimit := netUser.NodeLimit, ID := netUser.ID,
                 Clients := netUser.Clients ++ [clientID], Nodes := netUser.Nodes } ∧
      ∀ n i, ¬ (n = network.NetID ∧ i = netUser.ID) →
        (checkProClientAccess lv st username clientID network).store.netUsers n i
          = st.netUsers n i) := by
  by_cases hw : st.writable = true
  · simp [checkProClientAccess, hu, hna, GetNetworkUser, hnu, hadm, hno, hlt, hq,
      UpdateNetworkUser, hw, networkUserWrites]
    intro n i hni hn hi
    exact absurd hi (hni hn)
  · simp [checkProClientAccess, hu, hna, GetNetworkUser, hnu, hadm, hno, hlt, hq,
      UpdateNetworkUser, hw, networkUserWrites]

theorem checkProClientAccess_appends_witness :
    (checkProClientAccess exampleLevels exampleStore "carol" "c10"
        { NetID := "net1" }).store.netUsers "net1" "carol"
      = some { AccessLevel := 2, ClientLimit := 3, NodeLimit := 0, ID := "carol",
               Clients := ["c9"] ++ ["c10"], Nodes := [] } :=
  ((checkProClientAccess_appends exampleLevels exampleStore "carol" "c10" { NetID := "net1" }
      { UserName := "carol" }
      { AccessLevel := 2, ClientLimit := 3, ID := "carol", Clients := ["c9"] }
      rfl rfl rfl (by decide) (by decide) (by decide) (by decide)).2.2.2.2 (by decide)).1

/-! ## Validation and error kinds -/

theorem length_pos_iff_ne_empty (s : String) : s.length > 0 ↔ s ≠ "" := by
  rw [← not_iff_not]
  simp only [gt_iff_lt, not_lt, Nat.le_zero, ne_eq, not_not]
  constructor
  · intro h
    exact (data_eq_nil_iff s).1 (List.length_eq_zero.1 h)
  · intro h
    subst h
    rfl

theorem all_eq_false_iff_exists (p : String → Bool) (l : List String) :
    l.all p = false ↔ ∃ x ∈ l, p x = false := by
  induction l with
  | nil => simp
  | cons a t ih => cases h : p a <;> simp [List.all_cons, h, ih]

theorem validateExtClient_badID (sv : Services) (e : ExtClient) (c : CustomExtClient)
    (h1 : c.ClientID ≠ "" ∧ sv.validName c.ClientID = false) :
    validateExtClient sv e c = (e, some "errInvalidExtClientID") := by
  unfold validateExtClient
  rw [if_pos h1]

theorem validateExtClient_badKey (sv : Services) (e : ExtClient) (c : CustomExtClient)
    (h1 : ¬ (c.ClientID ≠ "" ∧ sv.validName c.ClientID = false))
    (h2 : c.PublicKey.length > 0 ∧ sv.ParseKey c.PublicKey = false) :
    (validateExtClient sv e c).2 = some "errInvalidExtClientPubKey" := by
  unfold validateExtClient
  rw [if_neg h1]
  dsimp only
  rw [if_pos h2]

theorem validateExtClient_badIP (sv : Services) (e : ExtClient) (c : CustomExtClient)
    (h1 : ¬ (c.ClientID ≠ "" ∧ sv.validName c.ClientID = false))
    (h2 : ¬ (c.PublicKey.length > 0 ∧ sv.ParseKey c.PublicKey = false))
    (h3 : c.ExtraAllowedIPs.length > 0 ∧ c.ExtraAllowedIPs.all sv.ParseCIDR = false) :
    (validateExtClient sv e c).2 = some "errInvalidExtClientExtraIP" := by
  unfold validateExtClient
  rw [if_neg h1]
  dsimp only
  rw [if_neg h2, if_pos h3]

theorem validateExtClient_badDNS (sv : Services) (e : ExtClient) (c : CustomExtClient)
    (h1 : ¬ (c.ClientID ≠ "" ∧ sv.validName c.ClientID = false))
    (h2 : ¬ (c.PublicKey.length > 0 ∧ sv.ParseKey c.PublicKey = false))
    (h3 : ¬ (c.ExtraAllowedIPs.length > 0 ∧ c.ExtraAllowedIPs.all sv.ParseCIDR = false))
    (h4 : c.DNS ≠ "" ∧ sv.ParseIP c.DNS = false) :
    (validateExtClient sv e c).2 = some "errInvalidExtClientDNS" := by
  unfold validateExtClient
  rw [if_neg h1]
  dsimp only
  rw [if_neg h2, if_neg h3, if_pos h4]

/-- The target client that `validateExtClient` leaves when every check passes. -/
theorem validateExtClient_ok (sv : Services) (e : ExtClient) (c : CustomExtClient)
    (h1 : ¬ (c.ClientID ≠ "" ∧ sv.validName c.ClientID = false))
    (h2 : ¬ (c.PublicKey.length > 0 ∧ sv.ParseKey c.PublicKey = false))
    (h3 : ¬ (c.ExtraAllowedIPs.length > 0 ∧ c.ExtraAllowedIPs.all sv.ParseCIDR = false))
    (h4 : ¬ (c.DNS ≠ "" ∧ sv.ParseIP c.DNS = false)) :
    validateExtClient sv e c
      = ({ ClientID := c.ClientID
           PrivateKey := e.PrivateKey
           PublicKey := if c.PublicKey.length > 0 then c.PublicKey else e.PublicKey
           Network := e.Network
           DNS := if c.DNS ≠ "" then c.DNS else e.DNS
           Address := e.Address
           Address6 := e.Address6
           ExtraAllowedIPs :=
             if c.ExtraAllowedIPs.length > 0 then c.ExtraAllowedIPs else e.ExtraAllowedIPs
           IngressGatewayID := e.IngressGatewayID
           IngressGatewayEndpoint := e.IngressGatewayEndpoint
           Enabled := e.Enabled
           OwnerID := e.OwnerID
           DeniedACLs := e.DeniedACLs }, none) := by
  unfold validateExtClient
  rw [if_neg h1]
  dsimp only
  rw [if_neg h2, if_neg h3, if_neg h4]
  by_cases a : c.PublicKey.length > 0 <;> by_cases b : c.ExtraAllowedIPs.length > 0 <;>
    by_cases d : c.DNS = "" <;>
    simp only [a, b, d, ne_eq, not_true_eq_false, not_false_eq_true, if_true, if_false]

/-- C17: `validateExtClient` returns an error exactly when the client id is
non-empty and not a valid name, or the public key is non-empty and does not
parse, or some entry of `ExtraAllowedIPs` is not a CIDR, or the DNS value is
non-empty and not an IP; without an error the target holds the request's client
id, and its public key, extra ranges and DNS value where the request gives them;
`createExtClient` and `updateExtClient` report the error with kind `badrequest`
and attempt no effect. -/
theorem validateExtClient_iff (sv : Services) (extclient : ExtClient) (c : CustomExtClient) :
    ((∃ err, (validateExtClient sv extclient c).2 = some err) ↔
      (c.ClientID ≠ "" ∧ sv.validName c.ClientID = false) ∨
      (c.PublicKey ≠ "" ∧ sv.ParseKey c.PublicKey = false) ∨
      (∃ ip ∈ c.ExtraAllowedIPs, sv.ParseCIDR ip = false) ∨
      (c.DNS ≠ "" ∧ sv.ParseIP c.DNS = false)) ∧
    ((validateExtClient sv extclient c).2 = none →
      (validateExtClient sv extclient c).1.ClientID = c.ClientID ∧
      (c.PublicKey ≠ "" → (validateExtClient sv extclient c).1.PublicKey = c.PublicKey) ∧
      (c.ExtraAllowedIPs ≠ [] →
        (validateExtClient sv extclient c).1.ExtraAllowedIPs = c.ExtraAllowedIPs) ∧
      (c.DNS ≠ "" → (validateExtClient sv extclient c).1.DNS = c.DNS)) ∧
    (∀ lv env st networkName nodeid ismaster user err,
      checkIngressExists env nodeid = true →
      (validateExtClient sv {} c).2 = some err →
      (createExtClient lv env sv st networkName nodeid ismaster user (.ok c)).response
          = .error ⟨err, "badrequest"⟩ ∧
      (createExtClient lv env sv st networkName nodeid ismaster user (.ok c)).effects = []) ∧
    (∀ lv env st clientid network ismaster user key err,
      sv.GetRecordKey clientid network = .ok key →
      (validateExtClient sv {} c).2 = some err →
      (updateExtClient lv env sv st clientid network ismaster user (.ok c)).response
          = .error ⟨err, "badrequest"⟩ ∧
      (updateExtClient lv env sv st clientid network ismaster user (.ok c)).effects = []) := by
  have hk := length_pos_iff_ne_empty c.PublicKey
  have hl : c.ExtraAllowedIPs.length > 0 ↔ c.ExtraAllowedIPs ≠ [] := List.length_pos
  have hall := all_eq_false_iff_exists sv.ParseCIDR c.ExtraAllowedIPs
  refine ⟨?_, ?_, ?_, ?_⟩
  · by_cases h1 : c.ClientID ≠ "" ∧ sv.validName c.ClientID = false
    · rw [validateExtClient_badID sv extclient c h1]
      exact ⟨fun _ => Or.inl h1, fun _ => ⟨_, rfl⟩⟩
    · by_cases h2 : c.PublicKey.length > 0 ∧ sv.ParseKey c.PublicKey = false
      · rw [validateExtClient_badKey sv extclient c h1 h2]
        exact ⟨fun _ => Or.inr (Or.inl ⟨hk.1 h2.1, h2.2⟩), fun _ => ⟨_, rfl⟩⟩
      · have h2' : ¬ (c.PublicKey ≠ "" ∧ sv.ParseKey c.PublicKey = false) :=
          fun h => h2 ⟨hk.2 h.1, h.2⟩
        by_cases h3 : c.ExtraAllowedIPs.length > 0 ∧ c.ExtraAllowedIPs.all sv.ParseCIDR = false
        · rw [validateExtClient_badIP sv extclient c h1 h2 h3]
          exact ⟨fun _ => Or.inr (Or.inr (Or.inl (hall.1 h3.2))), fun _ => ⟨_, rfl⟩⟩
        · have h3' : ¬ ∃ ip ∈ c.ExtraAllowedIPs, sv.ParseCIDR ip = false := by
            intro h
            obtain ⟨ip, hip, hbad⟩ := h
            exact h3 ⟨List.length_pos.2 (List.ne_nil_of_mem hip), hall.2 ⟨ip, hip, hbad⟩⟩
          by_cases h4 : c.DNS ≠ "" ∧ sv.ParseIP c.DNS = false
          · rw [validateExtClient_badDNS sv extclient c h1 h2 h3 h4]
            exact ⟨fun _ => Or.inr (Or.inr (Or.inr h4)), fun _ => ⟨_, rfl⟩⟩
          · rw [validateExtClient_ok sv extclient c h1 h2 h3 h4]
            constructor
            · rintro ⟨err, herr⟩
              exact absurd herr (by simp)
            · rintro (h | h | h | h)
              · exact absurd h h1
              · exact absurd h h2'
              · exact absurd h h3'
              · exact absurd h h4
  · by_cases h1 : c.ClientID ≠ "" ∧ sv.validName c.ClientID = false
    · rw [validateExtClient_badID sv extclient c h1]
      intro h
      exact absurd h (by simp)
    · by_cases h2 : c.PublicKey.length > 0 ∧ sv.ParseKey c.PublicKey = false
      · rw [validateExtClient_badKey sv extclient c h1 h2]
        intro h
        exact absurd h (by simp)
      · by_cases h3 : c.ExtraAllowedIPs.length > 0 ∧ c.ExtraAllowedIPs.all sv.ParseCIDR = false
        · rw [validateExtClient_badIP sv extclient c h1 h2 h3]
          intro h
          exact absurd h (by simp)
        · by_cases h4 : c.DNS ≠ "" ∧ sv.ParseIP c.DNS = false
          · rw [validateExtClient_badDNS sv extclient c h1 h2 h3 h4]
            intro h
            exact absurd h (by simp)
          · rw [validateExtClient_ok sv extclient c h1 h2 h3 h4]
            intro _
            refine ⟨rfl, ?_, ?_, ?_⟩
            · intro hpk
              simp only [if_pos (hk.2 hpk)]
            · intro hips
              simp only [if_pos (hl.2 hips)]
            · intro d
              simp only [if_pos d]
  · intro lv env st networkName nodeid ismaster user err hing hv
    cases hr : validateExtClient sv {} c with
    | mk e o =>
      rw [hr] at hv
      simp only at hv
      subst hv
      simp [createExtClient, hing, hr]
  · intro lv env st clientid network ismaster user key err hkey hv
    cases hr : validateExtClient sv {} c with
    | mk e o =>
      rw [hr] at hv
      simp only at hv
      subst hv
      simp [updateExtClient, hkey, hr]

theorem validateExtClient_iff_witness :
    (createExtClient exampleLevels e2eEnv { exampleServices with ParseIP := fun _ => false }
        exampleStore "net1" "gw1" "no" "bob"
        (.ok { ClientID := "cli1", DNS := "not-an-ip" })).response
      = .error ⟨"errInvalidExtClientDNS", "badrequest"⟩ :=
  ((validateExtClient_iff { exampleServices with ParseIP := fun _ => false } {}
      { ClientID := "cli1", DNS := "not-an-ip" }).2.2.1
    exampleLevels e2eEnv exampleStore "net1" "gw1" "no" "bob" "errInvalidExtClientDNS"
    rfl (by decide)).1

/-- C18 (as amended): on an existing client, `getExtClientConf` fails with kind
`internal` when the ingress gateway node is absent, when the node exists but its
host is absent, and when both exist but the parent network is absent; in each
case the response is the error, whatever the requested format, so no
configuration text is produced. -/
theorem getExtClientConf_lookup_failures (env : Env) (clientid networkid type : String)
    (client : ExtClient) (hc : env.GetExtClient clientid networkid = .ok client) :
    (∀ err, env.GetNodeByID client.IngressGatewayID = .error err →
      getExtClientConf env clientid networkid type = .error ⟨err, "internal"⟩) ∧
    (∀ gwnode err, env.GetNodeByID client.IngressGatewayID = .ok gwnode →
      env.GetHost gwnode.HostID = .error err →
      getExtClientConf env clientid networkid type = .error ⟨err, "internal"⟩) ∧
    (∀ gwnode host err, env.GetNodeByID client.IngressGatewayID = .ok gwnode →
      env.GetHost gwnode.HostID = .ok host →
      env.GetParentNetwork client.Network = .error err →
      getExtClientConf env clientid networkid type = .error ⟨err, "internal"⟩) := by
  refine ⟨?_, ?_, ?_⟩
  · intro err hn
    simp [getExtClientConf, hc, hn]
  · intro gwnode err hn hh
    simp [getExtClientConf, hc, hn, hh]
  · intro gwnode host err hn hh hnet
    simp [getExtClientConf, hc, hn, hh, hnet]

/-- C18, counterexample: with the ingress gateway node absent the export fails
with kind `internal`, not `notfound`. -/
theorem getExtClientConf_node_absent_internal :
    ∃ e, getExtClientConf { e2eEnv with GetNodeByID := fun _ => .error "no result found" }
        "cli1" "net1" "file" = .error e ∧
      e.errType = "internal" ∧ e.errType ≠ "notfound" :=
  ⟨⟨"no result found", "internal"⟩, rfl, rfl, by decide⟩

theorem getExtClientConf_lookup_failures_witness :
    getExtClientConf { e2eEnv with GetHost := fun _ => .error "no result found" }
        "cli1" "net1" "file" = .error ⟨"no result found", "internal"⟩ :=
  (getExtClientConf_lookup_failures { e2eEnv with GetHost := fun _ => .error "no result found" }
    "cli1" "net1" "file" e2eClient rfl).2.1 e2eNode "no result found" rfl rfl

/-! ## Update and delete: what is written and published -/

/-- What `updateExtClient` does once the stored client is read and the access gate
is passed. -/
theorem updateExtClient_reached (lv : AccessLevels) (env : Env) (sv : Services) (st : Store)
    (clientid network ismaster user : String) (update : CustomExtClient)
    (key data : String) (old0 old : ExtClient)
    (hkey : sv.GetRecordKey clientid network = .ok key)
    (hval : validateExtClient sv {} update = (old0, none))
    (hfetch : sv.FetchRecord key = .ok data)
    (hun : sv.Unmarshal data old0 = .ok old)
    (hgate : ownershipGate lv st ismaster user clientid network = none) :
    updateExtClient lv env sv st clientid network ismaster user (.ok update)
      = match sv.UpdateExtClient
            (if update.DeniedACLs.length ≠ old.DeniedACLs.length then
              SetClientACLs old update.DeniedACLs else old) (aliasedUpdate update old) with
        | .error err =>
          ⟨.error ⟨err, "internal"⟩,
            (if update.ClientID ≠ old.ClientID ∧ old.OwnerID ≠ "" then
              [.DissociateNetworkUserClient old.OwnerID network old.ClientID,
               .AssociateNetworkUserClient old.OwnerID network update.ClientID]
             else [])
            ++ [.UpdateExtClient
                  (if update.DeniedACLs.length ≠ old.DeniedACLs.length then
                    SetClientACLs old update.DeniedACLs else old) (aliasedUpdate update old)], st⟩
        | .ok newclient =>
          ⟨.ok newclient,
            (if update.ClientID ≠ old.ClientID ∧ old.OwnerID ≠ "" then
              [.DissociateNetworkUserClient old.OwnerID network old.ClientID,
               .AssociateNetworkUserClient old.OwnerID network update.ClientID]
             else [])
            ++ [.UpdateExtClient
                  (if update.DeniedACLs.length ≠ old.DeniedACLs.length then
                    SetClientACLs old update.DeniedACLs else old) (aliasedUpdate update old)]
            ++ (if update.DeniedACLs.length ≠ old.DeniedACLs.length ∨
                    update.Enabled ≠ old.Enabled then
                  match env.GetNodeByID newclient.IngressGatewayID with
                  | .ok _ => [.PublishPeerUpdate]
                  | .error _ => []
                else [])
            ++ (if update.ClientID ≠ old.ClientID then
                  [.PublishExtClientDNSUpdate
                    (if update.DeniedACLs.length ≠ old.DeniedACLs.length then
                      SetClientACLs old update.DeniedACLs else old) newclient network]
                else []), st⟩ := by
  have e1 : (aliasedUpdate update old).ClientID = update.ClientID := rfl
  have e2 : (aliasedUpdate update old).DeniedACLs = update.DeniedACLs := rfl
  have e3 : (aliasedUpdate update old).Enabled = update.Enabled := rfl
  simp only [updateExtClient, hkey, hval, hfetch, hun, hgate, e1, e2, e3]
  by_cases hl : update.DeniedACLs.length = old.DeniedACLs.length <;>
    by_cases hid : update.ClientID = old.ClientID <;>
    by_cases hen : update.Enabled = old.Enabled <;>
    cases hu : sv.UpdateExtClient
        (if update.DeniedACLs.length ≠ old.DeniedACLs.length then
          SetClientACLs old update.DeniedACLs else old) (aliasedUpdate update old) <;>
    simp [hl, hid, hen, SetClientACLs] at hu ⊢ <;>
    simp [hu]

/-- C13 (as amended): in a successful `updateExtClient` request a peer update is
published, once, exactly when the requested enabled flag differs from the stored
one or the requested denied-ACL list has another length than the stored one, and
the ingress gateway node of the updated client is found. -/
theorem updateExtClient_peerUpdate (lv : AccessLevels) (env : Env) (sv : Services) (st : Store)
    (clientid network ismaster user : String) (update : CustomExtClient)
    (key data : String) (old0 old newclient : ExtClient)
    (hkey : sv.GetRecordKey clientid network = .ok key)
    (hval : validateExtClient sv {} update = (old0, none))
    (hfetch : sv.FetchRecord key = .ok data)
    (hun : sv.Unmarshal data old0 = .ok old)
    (hgate : ownershipGate lv st ismaster user clientid network = none)
    (hupd : sv.UpdateExtClient
        (if update.DeniedACLs.length ≠ old.DeniedACLs.length then
          SetClientACLs old update.DeniedACLs else old) (aliasedUpdate update old) = .ok newclient) :
    (updateExtClient lv env sv st clientid network ismaster user (.ok update)).response
      = .ok newclient ∧
    (Effect.PublishPeerUpdate ∈
        (updateExtClient lv env sv st clientid network ismaster user (.ok update)).effects ↔
      (update.Enabled ≠ old.Enabled ∨ update.DeniedACLs.length ≠ old.DeniedACLs.length) ∧
        ∃ node, env.GetNodeByID newclient.IngressGatewayID = .ok node) ∧
    ((updateExtClient lv env sv st clientid network ismaster user (.ok update)).effects.filter
        Effect.isPeerUpdate).length ≤ 1 := by
  rw [updateExtClient_reached lv env sv st clientid network ismaster user update key data
    old0 old hkey hval hfetch hun hgate, hupd]
  refine ⟨rfl, ?_, ?_⟩
  · by_cases hl : update.DeniedACLs.length = old.DeniedACLs.length <;>
      by_cases hid : update.ClientID = old.ClientID <;>
      by_cases hen : update.Enabled = old.Enabled <;>
      by_cases ho : old.OwnerID = "" <;>
      cases hn : env.GetNodeByID newclient.IngressGatewayID <;>
      simp [hl, hid, hen, ho, hn]
  · by_cases hl : update.DeniedACLs.length = old.DeniedACLs.length <;>
      by_cases hid : update.ClientID = old.ClientID <;>
      by_cases hen : update.Enabled = old.Enabled <;>
      by_cases ho : old.OwnerID = "" <;>
      cases hn : env.GetNodeByID newclient.IngressGatewayID <;>
      simp [hl, hid, hen, ho, hn, List.filter_cons, Effect.isPeerUpdate]

/-- C13, counterexample: an update that turns the enabled flag off succeeds, but
with the ingress gateway node of the client absent no peer update is published. -/
theorem updateExtClient_no_peerUpdate :
    (∃ c, (updateExtClient exampleLevels
        { e2eEnv with GetNodeByID := fun _ => .error "no result found" } exampleServices
        exampleStore "cli1" "net1" "yes" "root"
        (.ok { ClientID := "cli1", Enabled := false })).response = .ok c) ∧
    (false ≠ e2eClient.Enabled) ∧
    Effect.PublishPeerUpdate ∉
      (updateExtClient exampleLevels
        { e2eEnv with GetNodeByID := fun _ => .error "no result found" } exampleServices
        exampleStore "cli1" "net1" "yes" "root"
        (.ok { ClientID := "cli1", Enabled := false })).effects :=
  ⟨⟨_, rfl⟩, by decide, by decide⟩

theorem updateExtClient_peerUpdate_witness :
    Effect.PublishPeerUpdate ∈
      (updateExtClient exampleLevels e2eEnv exampleServices exampleStore "cli1" "net1" "yes" "root"
        (.ok { ClientID := "cli1", Enabled := false })).effects :=
  (updateExtClient_peerUpdate exampleLevels e2eEnv exampleServices exampleStore
    "cli1" "net1" "yes" "root" { ClientID := "cli1", Enabled := false }
    "cli1###net1" "cli1" { ClientID := "cli1" } e2eClient { e2eClient with Enabled := false }
    rfl (by decide) rfl rfl (by decide) rfl).2.1.2
    ⟨Or.inl (by decide), e2eNode, rfl⟩

/-- C14: in a successful `updateExtClient` request whose client id differs from
the stored one, exactly one DNS publication is made: a DNS update that carries,
as the record to remove, the stored client with its identifier and every other
field (its denied-ACL list being the requested one when the two lists differ in
length, since line 481 runs before line 489), and, as the record to add, the
client that `logic.UpdateExtClient` gave back, which is also the response; when
the id is the stored one no DNS publication is made.  The record to add has the
requested identifier whenever the store's update gives back the identifier it is
asked for. -/
theorem updateExtClient_dnsUpdate (lv : AccessLevels) (env : Env) (sv : Services) (st : Store)
    (clientid network ismaster user : String) (update : CustomExtClient)
    (key data : String) (old0 old newclient : ExtClient)
    (hkey : sv.GetRecordKey clientid network = .ok key)
    (hval : validateExtClient sv {} update = (old0, none))
    (hfetch : sv.FetchRecord key = .ok data)
    (hun : sv.Unmarshal data old0 = .ok old)
    (hgate : ownershipGate lv st ismaster user clientid network = none)
    (hupd : sv.UpdateExtClient
        (if update.DeniedACLs.length ≠ old.DeniedACLs.length then
          SetClientACLs old update.DeniedACLs else old) (aliasedUpdate update old)
        = .ok newclient) :
    (updateExtClient lv env sv st clientid network ismaster user (.ok update)).response
      = .ok newclient ∧
    (update.ClientID ≠ old.ClientID →
      (updateExtClient lv env sv st clientid network ismaster user (.ok update)).effects.filter
          Effect.isDNS
        = [.PublishExtClientDNSUpdate
            { ClientID := old.ClientID
              PrivateKey := old.PrivateKey
              PublicKey := old.PublicKey
              Network := old.Network
              DNS := old.DNS
              Address := old.Address
              Address6 := old.Address6
              ExtraAllowedIPs := old.ExtraAllowedIPs
              IngressGatewayID := old.IngressGatewayID
              IngressGatewayEndpoint := old.IngressGatewayEndpoint
              Enabled := old.Enabled
              OwnerID := old.OwnerID
              DeniedACLs :=
                if update.DeniedACLs.length ≠ old.DeniedACLs.length then update.DeniedACLs
                else old.DeniedACLs }
            newclient network]) ∧
    (update.ClientID ≠ old.ClientID →
      update.DeniedACLs.length = old.DeniedACLs.length →
      (updateExtClient lv env sv st clientid network ismaster user (.ok update)).effects.filter
          Effect.isDNS
        = [.PublishExtClientDNSUpdate old newclient network]) ∧
    (update.ClientID = old.ClientID →
      (updateExtClient lv env sv st clientid network ismaster user (.ok update)).effects.filter
          Effect.isDNS = []) ∧
    ((∀ o u n, sv.UpdateExtClient o u = .ok n → n.ClientID = u.ClientID) →
      newclient.ClientID = update.ClientID) := by
  rw [updateExtClient_reached lv env sv st clientid network ismaster user update key data
    old0 old hkey hval hfetch hun hgate, hupd]
  have hrec : (if update.DeniedACLs.length ≠ old.DeniedACLs.length then
        SetClientACLs old update.DeniedACLs else old)
      = { ClientID := old.ClientID
          PrivateKey := old.PrivateKey
          PublicKey := old.PublicKey
          Network := old.Network
          DNS := old.DNS
          Address := old.Address
          Address6 := old.Address6
          ExtraAllowedIPs := old.ExtraAllowedIPs
          IngressGatewayID := old.IngressGatewayID
          IngressGatewayEndpoint := old.IngressGatewayEndpoint
          Enabled := old.Enabled
          OwnerID := old.OwnerID
          DeniedACLs :=
            if update.DeniedACLs.length ≠ old.DeniedACLs.length then update.DeniedACLs
            else old.DeniedACLs } := by
    by_cases hl : update.DeniedACLs.length = old.DeniedACLs.length
    · simp only [hl, ne_eq, not_true_eq_false, if_false]
    · simp only [hl, ne_eq, not_false_eq_true, if_true, SetClientACLs]
  have hmain : update.ClientID ≠ old.ClientID →
      List.filter Effect.isDNS
          ((if update.ClientID ≠ old.ClientID ∧ old.OwnerID ≠ "" then
              [Effect.DissociateNetworkUserClient old.OwnerID network old.ClientID,
               Effect.AssociateNetworkUserClient old.OwnerID network update.ClientID]
            else [])
            ++ [Effect.UpdateExtClient
                  (if update.DeniedACLs.length ≠ old.DeniedACLs.length then
                    SetClientACLs old update.DeniedACLs else old) (aliasedUpdate update old)]
            ++ (if update.DeniedACLs.length ≠ old.DeniedACLs.length ∨
                    update.Enabled ≠ old.Enabled then
                  match env.GetNodeByID newclient.IngressGatewayID with
                  | .ok _ => [Effect.PublishPeerUpdate]
                  | .error _ => []
                else [])
            ++ (if update.ClientID ≠ old.ClientID then
                  [Effect.PublishExtClientDNSUpdate
                    (if update.DeniedACLs.length ≠ old.DeniedACLs.length then
                      SetClientACLs old update.DeniedACLs else old) newclient network]
                else []))
        = [Effect.PublishExtClientDNSUpdate
            (if update.DeniedACLs.length ≠ old.DeniedACLs.length then
              SetClientACLs old update.DeniedACLs else old) newclient network] := by
    intro hid
    by_cases hc : update.DeniedACLs.length ≠ old.DeniedACLs.length ∨ update.Enabled ≠ old.Enabled <;>
      by_cases ho : old.OwnerID = "" <;>
      cases hn : env.GetNodeByID newclient.IngressGatewayID <;>
      simp only [hid, ho, hc, hn, ne_eq, not_false_eq_true, not_true_eq_false, and_true,
        and_false, if_true, if_false, List.nil_append, List.cons_append, List.append_nil,
        List.filter_cons, List.filter_nil, Effect.isDNS, Bool.false_eq_true]
  refine ⟨rfl, ?_, ?_, ?_, ?_⟩
  · intro hid
    rw [← hrec]
    exact hmain hid
  · intro hid hl
    have h := hmain hid
    simp only [hl, ne_eq, not_true_eq_false, if_false] at h
    simpa only [hl, ne_eq, not_true_eq_false, if_false] using h
  · intro hid
    by_cases hl : update.DeniedACLs.length = old.DeniedACLs.length <;>
      by_cases hen : update.Enabled = old.Enabled <;>
      cases hn : env.GetNodeByID newclient.IngressGatewayID <;>
      simp [hl, hid, hen, hn, List.filter_cons, Effect.isDNS]
  · intro hcontract
    exact hcontract _ (aliasedUpdate update old) _ hupd

theorem updateExtClient_dnsUpdate_witness :
    (updateExtClient exampleLevels e2eEnv exampleServices exampleStore "cli1" "net1" "yes"
        "root" (.ok { ClientID := "cli2", Enabled := true })).effects.filter Effect.isDNS
      = [.PublishExtClientDNSUpdate e2eClient { e2eClient with ClientID := "cli2" } "net1"] ∧
    (updateExtClient exampleLevels e2eEnv exampleServices exampleStore "cli1" "net1" "yes"
        "root" (.ok { ClientID := "cli1", Enabled := false })).effects.filter Effect.isDNS
      = [] :=
  ⟨(updateExtClient_dnsUpdate exampleLevels e2eEnv exampleServices exampleStore
      "cli1" "net1" "yes" "root" { ClientID := "cli2", Enabled := true }
      "cli1###net1" "cli1" { ClientID := "cli2" } e2eClient { e2eClient with ClientID := "cli2" }
      rfl (by decide) rfl rfl (by decide) rfl).2.2.1 (by decide) (by decide),
   (updateExtClient_dnsUpdate exampleLevels e2eEnv exampleServices exampleStore
      "cli1" "net1" "yes" "root" { ClientID := "cli1", Enabled := false }
      "cli1###net1" "cli1" { ClientID := "cli1" } e2eClient { e2eClient with Enabled := false }
      rfl (by decide) rfl rfl (by decide) rfl).2.2.2.1 (by decide)⟩

/-- C15: in a `deleteExtClient` request that passes the access check, the effects
are, in this order: the dissociation of (owner, network, client id) when the
client has an owner and none when it has not, then the store deletion, and, when
the deletion succeeds, one peer-update publication and one DNS-removal
publication for the deleted client; no result of a publication is consulted. -/
theorem deleteExtClient_effects (lv : AccessLevels) (env : Env) (sv : Services) (st : Store)
    (clientid network ismaster user : String) (extclient : ExtClient) (ingressnode : Node)
    (hc : env.GetExtClient clientid network = .ok extclient)
    (hn : env.GetNodeByID extclient.IngressGatewayID = .ok ingressnode)
    (hgate : ownershipGate lv st ismaster user clientid network = none) :
    (deleteExtClient lv env sv st clientid network ismaster user).effects
      = (if extclient.OwnerID ≠ "" then
          [.DissociateNetworkUserClient extclient.OwnerID extclient.Network extclient.ClientID]
         else [])
        ++ [.DeleteExtClient network clientid]
        ++ (if sv.DeleteExtClient network clientid = none then
              [.PublishDeletedClientPeerUpdate extclient, .PublishDeleteExtClientDNS extclient]
            else []) ∧
    (sv.DeleteExtClient network clientid = none →
      (deleteExtClient lv env sv st clientid network ismaster user).response
        = .ok (clientid ++ " deleted.") ∧
      ((deleteExtClient lv env sv st clientid network ismaster user).effects.filter
          Effect.isPeerUpdate) = [.PublishDeletedClientPeerUpdate extclient] ∧
      ((deleteExtClient lv env sv st clientid network ismaster user).effects.filter
          Effect.isDNS) = [.PublishDeleteExtClientDNS extclient]) := by
  cases hd : sv.DeleteExtClient network clientid with
  | none =>
    by_cases ho : extclient.OwnerID = "" <;>
      simp [deleteExtClient, hc, hn, hgate, hd, ho, List.filter_cons, Effect.isPeerUpdate,
        Effect.isDNS]
  | some err =>
    by_cases ho : extclient.OwnerID = "" <;>
      simp [deleteExtClient, hc, hn, hgate, hd, ho]

theorem deleteExtClient_effects_witness :
    (deleteExtClient exampleLevels
        { e2eEnv with GetExtClient := fun _ _ => .ok { e2eClient with OwnerID := "bob" } }
        exampleServices exampleStore "cli1" "net1" "yes" "root").effects
      = [.DissociateNetworkUserClient "bob" "net1" "cli1",
         .DeleteExtClient "net1" "cli1",
         .PublishDeletedClientPeerUpdate { e2eClient with OwnerID := "bob" },
         .PublishDeleteExtClientDNS { e2eClient with OwnerID := "bob" }] :=
  (deleteExtClient_effects exampleLevels
    { e2eEnv with GetExtClient := fun _ _ => .ok { e2eClient with OwnerID := "bob" } }
    exampleServices exampleStore "cli1" "net1" "yes" "root" { e2eClient with OwnerID := "bob" }
    e2eNode rfl rfl (by decide)).1

theorem checkProClientAccess_error_store (lv : AccessLevels) (st : Store)
    (username clientID : String) (network : Network) (err : String)
    (h : (checkProClientAccess lv st username clientID network).ret.2 = some err) :
    (checkProClientAccess lv st username clientID network).store = st := by
  revert h
  cases hu : GetUser st username with
  | error e => simp [checkProClientAccess, hu]
  | ok u =>
    by_cases hadm : u.IsAdmin = true
    · simp [checkProClientAccess, hu, hadm]
    · cases hg : GetNetworkUser st network.NetID u.UserName with
      | error e => simp [checkProClientAccess, hu, hadm, hg]
      | ok netUser =>
        by_cases h1 : netUser.AccessLevel = lv.NET_ADMIN
        · simp [checkProClientAccess, hu, hadm, hg, h1]
        · by_cases h2 : netUser.AccessLevel = lv.NO_ACCESS
          · have h1' : ¬ lv.NO_ACCESS = lv.NET_ADMIN := fun e => h1 (h2.trans e)
            simp [checkProClientAccess, hu, hadm, hg, h2, h1']
          · by_cases h3 : (netUser.Clients.length : Int) < netUser.ClientLimit
            · by_cases h4 : netUser.AccessLevel < lv.NO_ACCESS
              · by_cases hw : st.writable = true
                · simp [checkProClientAccess, hu, hadm, hg, h1, h2, h3, h4,
                    UpdateNetworkUser, hw]
                · simp [checkProClientAccess, hu, hadm, hg, h1, h2, h3, h4,
                    UpdateNetworkUser, hw]
              · simp [checkProClientAccess, hu, hadm, hg, h1, h2, h3, h4]
            · simp [checkProClientAccess, hu, hadm, hg, h1, h2, h3]

/-- C16 (as amended): a create or update request that fails validation, and an
update or delete request that fails the access check, returns the error with no
effect attempted and the user tables as they were; a create request that fails
the access check returns the error after the client record was created and its
deletion was attempted, with the user tables as they were. -/
theorem failures_and_writes (lv : AccessLevels) (env : Env) (sv : Services) (st : Store) :
    (∀ networkName nodeid ismaster user c err,
      checkIngressExists env nodeid = true →
      (validateExtClient sv {} c).2 = some err →
      (createExtClient lv env sv st networkName nodeid ismaster user (.ok c)).response
          = .error ⟨err, "badrequest"⟩ ∧
      (createExtClient lv env sv st networkName nodeid ismaster user (.ok c)).effects = [] ∧
      (createExtClient lv env sv st networkName nodeid ismaster user (.ok c)).store = st) ∧
    (∀ clientid network ismaster user c key err,
      sv.GetRecordKey clientid network = .ok key →
      (validateExtClient sv {} c).2 = some err →
      (updateExtClient lv env sv st clientid network ismaster user (.ok c)).response
          = .error ⟨err, "badrequest"⟩ ∧
      (updateExtClient lv env sv st clientid network ismaster user (.ok c)).effects = [] ∧
      (updateExtClient lv env sv st clientid network ismaster user (.ok c)).store = st) ∧
    (∀ clientid network ismaster user update key data old0 old e,
      sv.GetRecordKey clientid network = .ok key →
      validateExtClient sv {} update = (old0, none) →
      sv.FetchRecord key = .ok data →
      sv.Unmarshal data old0 = .ok old →
      ownershipGate lv st ismaster user clientid network = some e →
      (updateExtClient lv env sv st clientid network ismaster user (.ok update)).response
          = .error e ∧
      (updateExtClient lv env sv st clientid network ismaster user (.ok update)).effects = [] ∧
      (updateExtClient lv env sv st clientid network ismaster user (.ok update)).store = st) ∧
    (∀ clientid network ismaster user extclient ingressnode e,
      env.GetExtClient clientid network = .ok extclient →
      env.GetNodeByID extclient.IngressGatewayID = .ok ingressnode →
      ownershipGate lv st ismaster user clientid network = some e →
      (deleteExtClient lv env sv st clientid network ismaster user).response = .error e ∧
      (deleteExtClient lv env sv st clientid network ismaster user).effects = [] ∧
      (deleteExtClient lv env sv st clientid network ismaster user).store = st) ∧
    (∀ networkName nodeid ismaster user c extclient0 node host prepared created err,
      checkIngressExists env nodeid = true →
      validateExtClient sv {} c = (extclient0, none) →
      env.GetNodeByID nodeid = .ok node →
      env.GetHost node.HostID = .ok host →
      sv.SetClientDefaultACLs
        { extclient0 with
          Network := networkName, IngressGatewayID := nodeid
          IngressGatewayEndpoint := host.EndpointIP ++ ":" ++ toString (sv.GetPeerListenPort host)
          Enabled := createExtClientEnabled (env.GetNetwork networkName) } = .ok prepared →
      sv.CreateExtClient prepared = .ok created →
      ismaster ≠ "yes" →
      (checkProClientAccess lv st user created.ClientID
        (match env.GetNetwork networkName with
         | .ok parentNetwork => parentNetwork
         | .error _ => {})).ret.2 = some err →
      (createExtClient lv env sv st networkName nodeid ismaster user (.ok c)).response
          = .error ⟨err, "internal"⟩ ∧
      (createExtClient lv env sv st networkName nodeid ismaster user (.ok c)).effects
          = [.CreateExtClient prepared]
            ++ networkUserWrites
                (checkProClientAccess lv st user created.ClientID
                  (match env.GetNetwork networkName with
                   | .ok parentNetwork => parentNetwork
                   | .error _ => {})).trace
            ++ [.DeleteExtClient networkName created.ClientID] ∧
      (createExtClient lv env sv st networkName nodeid ismaster user (.ok c)).store = st) := by
  refine ⟨?_, ?_, ?_, ?_, ?_⟩
  · intro networkName nodeid ismaster user c err hing hv
    cases hr : validateExtClient sv {} c with
    | mk e o =>
      rw [hr] at hv
      simp only at hv
      subst hv
      simp [createExtClient, hing, hr]
  · intro clientid network ismaster user c key err hkey hv
    cases hr : validateExtClient sv {} c with
    | mk e o =>
      rw [hr] at hv
      simp only at hv
      subst hv
      simp [updateExtClient, hkey, hr]
  · intro clientid network ismaster user update key data old0 old e hkey hval hfetch hun hgate
    simp [updateExtClient, hkey, hval, hfetch, hun, hgate]
  · intro clientid network ismaster user extclient ingressnode e hc hn hgate
    simp [deleteExtClient, hc, hn, hgate]
  · intro networkName nodeid ismaster user c extclient0 node host prepared created err
      hing hval hn hh hset hcreate hm hacc
    have hstore := checkProClientAccess_error_store lv st user created.ClientID _ err hacc
    cases hret : (checkProClientAccess lv st user created.ClientID
        (match env.GetNetwork networkName with
         | .ok parentNetwork => parentNetwork
         | .error _ => {})).ret with
    | mk isAdmin o =>
      rw [hret] at hacc
      simp only at hacc
      subst hacc
      have hm' : ¬ ismaster = "yes" := hm
      simp only [createExtClient, hing, hval, hn, hh, hset, hcreate, hret]
      simp [hstore, hm']

/-- C16, counterexample: `dave` has no NetworkUser record on `net1`; his create
request fails the access check, and by then the client record was created (its
deletion follows). -/
theorem createExtClient_access_failure_after_write :
    (∃ e, (createExtClient exampleLevels e2eEnv exampleServices exampleStore
        "net1" "gw1" "no" "dave" (.ok { ClientID := "cli7" })).response = .error e) ∧
    (createExtClient exampleLevels e2eEnv exampleServices exampleStore
        "net1" "gw1" "no" "dave" (.ok { ClientID := "cli7" })).effects
      = [.CreateExtClient
          { ClientID := "cli7", Network := "net1", IngressGatewayID := "gw1",
            IngressGatewayEndpoint := "203.0.113.5:51821", Enabled := true },
         .DeleteExtClient "net1" "cli7"] ∧
    (createExtClient exampleLevels e2eEnv exampleServices exampleStore
        "net1" "gw1" "no" "dave" (.ok { ClientID := "cli7" })).effects.any
      Effect.isStoreWrite = true :=
  ⟨⟨_, rfl⟩, by decide, by decide⟩

theorem failures_and_writes_witness :
    ((deleteExtClient exampleLevels e2eEnv exampleServices exampleStore
        "cli1" "net1" "no" "dave").response = .error ⟨"user not permitted", "internal"⟩ ∧
      (deleteExtClient exampleLevels e2eEnv exampleServices exampleStore
        "cli1" "net1" "no" "dave").effects = []) ∧
    ((createExtClient exampleLevels e2eEnv exampleServices exampleStore
        "net1" "gw1" "no" "dave" (.ok { ClientID := "cli7" })).response
        = .error ⟨"could not find any records", "internal"⟩ ∧
      (createExtClient exampleLevels e2eEnv exampleServices exampleStore
        "net1" "gw1" "no" "dave" (.ok { ClientID := "cli7" })).store = exampleStore) :=
  have hd := (failures_and_writes exampleLevels e2eEnv exampleServices exampleStore).2.2.2.1
    "cli1" "net1" "no" "dave" e2eClient e2eNode ⟨"user not permitted", "internal"⟩
    rfl rfl (by decide)
  have hc := (failures_and_writes exampleLevels e2eEnv exampleServices exampleStore).2.2.2.2
    "net1" "gw1" "no" "dave" { ClientID := "cli7" } { ClientID := "cli7" } e2eNode e2eHost
    { ClientID := "cli7", Network := "net1", IngressGatewayID := "gw1",
      IngressGatewayEndpoint := "203.0.113.5:51821", Enabled := true }
    { ClientID := "cli7", Network := "net1", IngressGatewayID := "gw1",
      IngressGatewayEndpoint := "203.0.113.5:51821", Enabled := true }
    "could not find any records"
    rfl (by decide) rfl rfl (congrArg Except.ok (by decide)) rfl (by decide) (by decide)
  ⟨⟨hd.1, hd.2.1⟩, ⟨hc.1, hc.2.2⟩⟩

theorem createExtClient_not_mem_networkUserWrites (ops : List StoreOp) (p : ExtClient) :
    Effect.CreateExtClient p ∉ networkUserWrites ops := by
  induction ops with
  | nil => simp [networkUserWrites]
  | cons op ops ih => cases op <;> simp [networkUserWrites, ih]

/-- C6 (as amended): when `createExtClient` gets as far as creating the client on
an existing network, the record it hands to `logic.CreateExtClient` is the one
that `logic.SetClientDefaultACLs` gave back for the validated client with
`Enabled` set to whether the network's `DefaultACL` is the text `yes`; it hands
over no other record; and, `SetClientDefaultACLs` leaving the flag alone, that
record has `Enabled = true` for `yes` and `Enabled = false` for `allow`, `deny`,
`no` and every other text, whatever `Enabled` the request body carries. -/
theorem createExtClient_enabled (lv : AccessLevels) (env : Env) (sv : Services) (st : Store)
    (networkName nodeid ismaster user : String) (c : CustomExtClient) (network : Network)
    (extclient0 : ExtClient) (node : Node) (host : Host) (prepared : ExtClient)
    (hing : checkIngressExists env nodeid = true)
    (hval : validateExtClient sv {} c = (extclient0, none))
    (hn : env.GetNodeByID nodeid = .ok node)
    (hh : env.GetHost node.HostID = .ok host)
    (hnet : env.GetNetwork networkName = .ok network)
    (hset : sv.SetClientDefaultACLs
        { extclient0 with
          Network := networkName, IngressGatewayID := nodeid
          IngressGatewayEndpoint := host.EndpointIP ++ ":" ++ toString (sv.GetPeerListenPort host)
          Enabled := decide (network.DefaultACL = "yes") } = .ok prepared) :
    (createExtClient lv env sv st networkName nodeid ismaster user (.ok c)).effects.head?
      = some (.CreateExtClient prepared) ∧
    (∀ p, Effect.CreateExtClient p ∈
        (createExtClient lv env sv st networkName nodeid ismaster user (.ok c)).effects →
      p = prepared) ∧
    ((∀ e e', sv.SetClientDefaultACLs e = .ok e' → e'.Enabled = e.Enabled) →
      (prepared.Enabled = true ↔ network.DefaultACL = "yes") ∧
      (network.DefaultACL ≠ "yes" → prepared.Enabled = false)) := by
  have hen : createExtClientEnabled (.ok network) = decide (network.DefaultACL = "yes") := rfl
  have hnw := createExtClient_not_mem_networkUserWrites
  refine ⟨?_, ?_, ?_⟩
  · cases hcreate : sv.CreateExtClient prepared with
    | error err => simp [createExtClient, hing, hval, hn, hh, hnet, hen, hset, hcreate]
    | ok created =>
      by_cases hm : ismaster = "yes"
      · simp [createExtClient, hing, hval, hn, hh, hnet, hen, hset, hcreate, hm]
      · cases hret : (checkProClientAccess lv st user created.ClientID network).ret with
        | mk isAdmin o =>
          cases o <;> cases isAdmin <;>
            simp [createExtClient, hing, hval, hn, hh, hnet, hen, hset, hcreate, hm, hret]
  · intro p
    cases hcreate : sv.CreateExtClient prepared with
    | error err =>
      simp only [createExtClient, hing, hval, hn, hh, hnet, hen, hset, hcreate]
      simp
    | ok created =>
      by_cases hm : ismaster = "yes"
      · simp only [createExtClient, hing, hval, hn, hh, hnet, hen, hset, hcreate, hm]
        simp
      · cases hret : (checkProClientAccess lv st user created.ClientID network).ret with
        | mk isAdmin o =>
          cases o <;> cases isAdmin <;>
            simp [createExtClient, hing, hval, hn, hh, hnet, hen, hset, hcreate, hm, hret, hnw]
  · intro hacl
    have h := hacl _ _ hset
    simp only at h
    rw [h]
    constructor
    · simp
    · intro hne
      simp [hne]

/-- C6, counterexample: on a network whose default ACL policy is `allow` the
record that `createExtClient` hands to `logic.CreateExtClient` has
`Enabled = false`. -/
theorem createExtClient_allow_disabled :
    (createExtClient exampleLevels
        { e2eEnv with GetNetwork := fun _ => .ok { e2eNetwork with DefaultACL := "allow" } }
        exampleServices exampleStore "net1" "gw1" "yes" "root"
        (.ok { ClientID := "cli7" })).effects.head?
      = some (.CreateExtClient
          { ClientID := "cli7", Network := "net1", IngressGatewayID := "gw1",
            IngressGatewayEndpoint := "203.0.113.5:51821", Enabled := false }) := by
  decide

theorem createExtClient_enabled_witness :
    (createExtClient exampleLevels e2eEnv exampleServices exampleStore "net1" "gw1" "yes" "root"
        (.ok { ClientID := "cli7" })).effects.head?
      = some (.CreateExtClient
          { ClientID := "cli7", Network := "net1", IngressGatewayID := "gw1",
            IngressGatewayEndpoint := "203.0.113.5:51821", Enabled := true }) ∧
    (createExtClient exampleLevels
        { e2eEnv with GetNetwork := fun _ => .ok { e2eNetwork with DefaultACL := "deny" } }
        exampleServices exampleStore "net1" "gw1" "yes" "root"
        (.ok { ClientID := "cli7", Enabled := true })).effects.head?
      = some (.CreateExtClient
          { ClientID := "cli7", Network := "net1", IngressGatewayID := "gw1",
            IngressGatewayEndpoint := "203.0.113.5:51821", Enabled := false }) :=
  ⟨(createExtClient_enabled exampleLevels e2eEnv exampleServices exampleStore
      "net1" "gw1" "yes" "root" { ClientID := "cli7" } e2eNetwork { ClientID := "cli7" }
      e2eNode e2eHost
      { ClientID := "cli7", Network := "net1", IngressGatewayID := "gw1",
        IngressGatewayEndpoint := "203.0.113.5:51821", Enabled := true }
      rfl (by decide) rfl rfl rfl (congrArg Except.ok (by decide))).1,
   (createExtClient_enabled exampleLevels
      { e2eEnv with GetNetwork := fun _ => .ok { e2eNetwork with DefaultACL := "deny" } }
      exampleServices exampleStore
      "net1" "gw1" "yes" "root" { ClientID := "cli7", Enabled := true }
      { e2eNetwork with DefaultACL := "deny" } { ClientID := "cli7" }
      e2eNode e2eHost
      { ClientID := "cli7", Network := "net1", IngressGatewayID := "gw1",
        IngressGatewayEndpoint := "203.0.113.5:51821", Enabled := false }
      rfl (by decide) rfl rfl rfl (congrArg Except.ok (by decide))).1⟩

/-! ## License helpers -/

theorem stdIndex_stdChar : ∀ i < 64, stdIndex (stdChar i) = some i := by decide

theorem stdChar_ne : ∀ i < 64, stdChar i ≠ '=' ∧ stdChar i ≠ '\r' ∧ stdChar i ≠ '\n' := by decide

theorem decodeQuanta_encodeBytes (b : List Nat) (hb : ∀ x ∈ b, x < 256) :
    decodeQuanta (encodeBytes b) = (b, none) := by
  induction b using encodeBytes.induct with
  | case1 => rfl
  | case2 a =>
    have ha : a < 256 := hb a (by simp)
    have h0 : a * 65536 / 262144 % 64 < 64 := Nat.mod_lt _ (by decide)
    have h1 : a * 65536 / 4096 % 64 < 64 := Nat.mod_lt _ (by decide)
    simp only [encodeBytes, decodeQuanta, stdIndex_stdChar _ h0, stdIndex_stdChar _ h1]
    simp
    omega
  | case3 a b =>
    have ha : a < 256 := hb a (by simp)
    have hb' : b < 256 := hb b (by simp)
    have h0 : (a * 65536 + b * 256) / 262144 % 64 < 64 := Nat.mod_lt _ (by decide)
    have h1 : (a * 65536 + b * 256) / 4096 % 64 < 64 := Nat.mod_lt _ (by decide)
    have h2 : (a * 65536 + b * 256) / 64 % 64 < 64 := Nat.mod_lt _ (by decide)
    simp only [encodeBytes, decodeQuanta, stdIndex_stdChar _ h0, stdIndex_stdChar _ h1,
      stdIndex_stdChar _ h2, (stdChar_ne _ h2).1]
    simp
    omega
  | case4 a b c rest ih =>
    have ha : a < 256 := hb a (by simp)
    have hb' : b < 256 := hb b (by simp)
    have hc : c < 256 := hb c (by simp)
    have h0 : (a * 65536 + b * 256 + c) / 262144 % 64 < 64 := Nat.mod_lt _ (by decide)
    have h1 : (a * 65536 + b * 256 + c) / 4096 % 64 < 64 := Nat.mod_lt _ (by decide)
    have h2 : (a * 65536 + b * 256 + c) / 64 % 64 < 64 := Nat.mod_lt _ (by decide)
    have h3 : (a * 65536 + b * 256 + c) % 64 < 64 := Nat.mod_lt _ (by decide)
    have ih' := ih (fun x hx => hb x (by simp [hx]))
    simp only [encodeBytes, decodeQuanta, stdIndex_stdChar _ h0, stdIndex_stdChar _ h1,
      stdIndex_stdChar _ h2, stdIndex_stdChar _ h3, (stdChar_ne _ h2).1, (stdChar_ne _ h3).1, ih']
    simp
    omega


theorem mem_of_stdIndex (c : Char) (i : Nat) (h : stdIndex c = some i) : c ∈ encodeStd := by
  unfold stdIndex at h
  by_cases hlt : encodeStd.indexOf c < 64
  · exact List.indexOf_lt_length.1 (by simpa [encodeStd] using hlt)
  · simp [hlt] at h

theorem stdPadded_of_decodeQuanta (cs : List Char) :
    (decodeQuanta cs).2 = none → StdPadded cs := by
  induction cs using decodeQuanta.induct with
  | case1 c0 c1 i0 i1 h1 h0 =>
    intro _
    refine ⟨by simp, [c0, c1], ['=', '='], rfl, ?_, Or.inr (Or.inr rfl)⟩
    intro c hc
    simp only [List.mem_cons, List.mem_singleton, List.not_mem_nil, or_false] at hc
    rcases hc with rfl | rfl
    · exact mem_of_stdIndex _ _ h0
    · exact mem_of_stdIndex _ _ h1
  | case2 c0 c1 rest i0 i1 h1 h0 hrest =>
    intro h
    simp [decodeQuanta, h1, h0, hrest] at h
  | case3 c0 c1 c3 rest i0 i1 h1 h0 hc3 =>
    intro h
    simp [decodeQuanta, h1, h0, hc3] at h
  | case4 c0 c1 c2 c3 rest i0 i1 h1 h0 hc2 h2 =>
    intro h
    simp [decodeQuanta, h1, h0, hc2, h2] at h
  | case5 c0 c1 c2 i0 i1 h1 h0 hc2 i2 h2 =>
    intro _
    refine ⟨by simp, [c0, c1, c2], ['='], rfl, ?_, Or.inr (Or.inl rfl)⟩
    intro c hc
    simp only [List.mem_cons, List.mem_singleton, List.not_mem_nil, or_false] at hc
    rcases hc with rfl | rfl | rfl
    · exact mem_of_stdIndex _ _ h0
    · exact mem_of_stdIndex _ _ h1
    · exact mem_of_stdIndex _ _ h2
  | case6 c0 c1 c2 rest i0 i1 h1 h0 hc2 i2 h2 hrest =>
    intro h
    simp [decodeQuanta, h1, h0, hc2, h2, hrest] at h
  | case7 c0 c1 c2 c3 rest i0 i1 h1 h0 hc2 i2 h2 hc3 h3 =>
    intro h
    simp [decodeQuanta, h1, h0, hc2, h2, hc3, h3] at h
  | case8 c0 c1 c2 c3 rest i0 i1 h1 h0 hc2 i2 h2 hc3 i3 h3 ih =>
    intro h
    have hrest : (decodeQuanta rest).2 = none := by
      simpa [decodeQuanta, h1, h0, hc2, h2, hc3, h3] using h
    obtain ⟨hlen, body, pad, hr, hb, hp⟩ := ih hrest
    refine ⟨?_, c0 :: c1 :: c2 :: c3 :: body, pad, by simp [hr], ?_, hp⟩
    · simp only [List.length_cons]
      omega
    · intro c hc
      simp only [List.mem_cons] at hc
      rcases hc with rfl | rfl | rfl | rfl | hc
      · exact mem_of_stdIndex _ _ h0
      · exact mem_of_stdIndex _ _ h1
      · exact mem_of_stdIndex _ _ h2
      · exact mem_of_stdIndex _ _ h3
      · exact hb c hc
  | case9 c0 c1 c2 c3 rest hno =>
    intro h
    cases h0 : stdIndex c0 with
    | none => simp [decodeQuanta, h0] at h
    | some i0 =>
      cases h1 : stdIndex c1 with
      | none => simp [decodeQuanta, h0, h1] at h
      | some i1 => exact absurd h1 (fun h1 => hno i0 i1 h0 h1)
  | case10 =>
    intro _
    exact ⟨rfl, [], [], rfl, by simp, Or.inl rfl⟩
  | case11 t hne hnil =>
    intro h
    match t, hne, hnil with
    | [], _, hnil => exact absurd rfl hnil
    | [_], _, _ => simp [decodeQuanta] at h
    | [_, _], _, _ => simp [decodeQuanta] at h
    | [_, _, _], _, _ => simp [decodeQuanta] at h
    | c0 :: c1 :: c2 :: c3 :: rest, hne, _ => exact absurd rfl (hne c0 c1 c2 c3 rest)

theorem dropLineBreaks_encodeBytes (b : List Nat) (hb : ∀ x ∈ b, x < 256) :
    dropLineBreaks (encodeBytes b) = encodeBytes b := by
  unfold dropLineBreaks
  rw [List.filter_eq_self]
  induction b using encodeBytes.induct with
  | case1 => simp [encodeBytes]
  | case2 a =>
    have h0 : a * 65536 / 262144 % 64 < 64 := Nat.mod_lt _ (by decide)
    have h1 : a * 65536 / 4096 % 64 < 64 := Nat.mod_lt _ (by decide)
    simp [encodeBytes, (stdChar_ne _ h0).2.1, (stdChar_ne _ h0).2.2,
      (stdChar_ne _ h1).2.1, (stdChar_ne _ h1).2.2]
  | case3 a b =>
    have h0 : (a * 65536 + b * 256) / 262144 % 64 < 64 := Nat.mod_lt _ (by decide)
    have h1 : (a * 65536 + b * 256) / 4096 % 64 < 64 := Nat.mod_lt _ (by decide)
    have h2 : (a * 65536 + b * 256) / 64 % 64 < 64 := Nat.mod_lt _ (by decide)
    simp [encodeBytes, (stdChar_ne _ h0).2.1, (stdChar_ne _ h0).2.2,
      (stdChar_ne _ h1).2.1, (stdChar_ne _ h1).2.2, (stdChar_ne _ h2).2.1, (stdChar_ne _ h2).2.2]
  | case4 a b c rest ih =>
    have h0 : (a * 65536 + b * 256 + c) / 262144 % 64 < 64 := Nat.mod_lt _ (by decide)
    have h1 : (a * 65536 + b * 256 + c) / 4096 % 64 < 64 := Nat.mod_lt _ (by decide)
    have h2 : (a * 65536 + b * 256 + c) / 64 % 64 < 64 := Nat.mod_lt _ (by decide)
    have h3 : (a * 65536 + b * 256 + c) % 64 < 64 := Nat.mod_lt _ (by decide)
    have ih' := ih (fun x hx => hb x (by simp [hx]))
    intro ch hch
    simp only [encodeBytes, List.mem_cons] at hch
    rcases hch with rfl | rfl | rfl | rfl | hch
    · simp [(stdChar_ne _ h0).2.1, (stdChar_ne _ h0).2.2]
    · simp [(stdChar_ne _ h1).2.1, (stdChar_ne _ h1).2.2]
    · simp [(stdChar_ne _ h2).2.1, (stdChar_ne _ h2).2.2]
    · simp [(stdChar_ne _ h3).2.1, (stdChar_ne _ h3).2.2]
    · exact ih' ch hch

/-- C19 (as amended): decoding what `base64encode` gives returns the byte sequence,
for the empty sequence an empty result; and `base64decode` returns `nil`, not the
bytes decoded so far, for every text on which the decoder reports an error, which
it does for every text that, once its carriage returns and line feeds are taken
out, is not standard padded base64. -/
theorem base64_roundtrip :
    (∀ b : List Nat, (∀ x ∈ b, x < 256) → base64decode (base64encode b) = some b) ∧
    base64decode (base64encode []) = some [] ∧
    (∀ s bytes err, DecodeString s = (bytes, some err) → base64decode s = none) ∧
    (∀ s, ¬ StdPadded (dropLineBreaks s.data) → base64decode s = none) := by
  refine ⟨?_, rfl, ?_, ?_⟩
  · intro b hb
    simp only [base64decode, base64encode, EncodeToString, DecodeString,
      dropLineBreaks_encodeBytes b hb, decodeQuanta_encodeBytes b hb]
  · intro s bytes err h
    simp only [base64decode, h]
  · intro s hs
    cases hd : DecodeString s with
    | mk bytes e =>
      cases e with
      | some err => simp only [base64decode, hd]
      | none =>
        exact absurd (stdPadded_of_decodeQuanta _ (by
          have : (DecodeString s).2 = none := by rw [hd]
          exact this)) hs

/-- C19, counterexample: a text with a line feed at the end is not standard padded
base64 (five characters), yet it is decoded, because the decoder ignores line
breaks. -/
theorem base64decode_ignores_line_feed :
    ¬ StdPadded "aGk=\n".data ∧ base64decode "aGk=\n" = some [104, 105] :=
  ⟨fun h => absurd h.1 (by decide), by decide⟩

theorem base64_roundtrip_witness :
    base64decode (base64encode [104, 105]) = some [104, 105] ∧
    base64encode [104, 105] = "aGk=" ∧
    DecodeString "aGk=junk" = ([104, 105], some "illegal base64 data") ∧
    base64decode "aGk=junk" = none :=
  ⟨base64_roundtrip.1 [104, 105] (by decide), by decide, by decide,
   base64_roundtrip.2.2.1 "aGk=junk" [104, 105] "illegal base64 data" (by decide)⟩

end Netmaker
